import Mathlib

/-!
Verification of the History & Batch-Mutation Engine of the metadata-remote
server, as implemented in src/app.py (with the history-store internals of
core/history.py, which are not part of the sources, modelled from the
specification where noted).

Paths are modelled as absolute slash-separated strings, the filesystem as
explicit lists of directories and audio files, and the external tag codec
(core.metadata.*, core.mutagen_handler) as a record of oracle functions whose
per-call outcome is either success, a boolean failure return, or a raised
exception carried as a message.
-/

set_option maxRecDepth 4000

namespace Mrem

/-! ## Path helpers (os.path counterparts used by src/app.py)

These are written by structural recursion over the character list of the
path, so that every witness evaluates inside the kernel. -/

/-- Split a character list at every slash (the groups str.split("/") would
produce). -/
def splitSlash : List Char → List (List Char)
  | [] => [[]]
  | c :: cs =>
    let r := splitSlash cs
    if c = '/' then [] :: r
    else
      match r with
      | [] => [[c]]
      | g :: gs => (c :: g) :: gs

/-- Rejoin slash-separated groups. -/
def joinSlash : List (List Char) → List Char
  | [] => []
  | [g] => g
  | g :: gs => g ++ '/' :: joinSlash gs

/-- The slash-separated components of a path. -/
def pathParts (p : String) : List (List Char) := splitSlash p.data

/-- os.path.basename for slash-separated absolute paths. -/
def basename (p : String) : String :=
  String.mk ((pathParts p).getLastD [])

/-- os.path.dirname for slash-separated absolute paths. -/
def dirname (p : String) : String :=
  String.mk (joinSlash (pathParts p).dropLast)

/-- os.path.join for one relative component (the only shape src/app.py uses). -/
def osJoin (a b : String) : String := a ++ "/" ++ b

/-- Drop the first n characters of a string (str slicing). -/
def strDrop (p : String) (n : Nat) : String := String.mk (p.data.drop n)

/-- Python str.startswith. -/
def strStartsWith (p pre : String) : Bool := pre.data.isPrefixOf p.data

/-- Python membership of a character in a string. -/
def strContains (s : String) (c : Char) : Bool := s.data.contains c

/-- Python str.upper over ASCII names. -/
def strToUpper (s : String) : String := String.mk (s.data.map Char.toUpper)

/-- Python str.lower over ASCII names. -/
def strToLower (s : String) : String := String.mk (s.data.map Char.toLower)

/-- os.path.relpath p start, for p strictly inside start. -/
def relpathOf (start p : String) : String := strDrop p (start.length + 1)

/-- Normalisation of path components, as os.path.normpath does after
os.path.abspath on an absolute input: empty and dot components vanish and
a dot-dot component pops the previous one. -/
def normComponents (cs : List (List Char)) : List (List Char) :=
  cs.foldl (fun acc c =>
    if c = [] ∨ c = ['.'] then acc
    else if c = ['.', '.'] then acc.dropLast
    else acc ++ [c]) []

/-- os.path.normpath of an absolute path. -/
def normalizePath (p : String) : String :=
  String.mk ('/' :: joinSlash (normComponents (pathParts p)))

/-- Modelled from the spec: core.file_utils.validate_path is not among the
sources; per the overview it resolves a path and confines it to the music
directory, raising ValueError otherwise (reported as HTTP 403 Invalid path by
every route).  Modelled for relative request paths: the joined path is
normalised and kept only when it stays at or below musicDir. -/
def validate_path (musicDir p : String) : Option String :=
  let n := normalizePath p
  if n = musicDir ∨ strStartsWith n (musicDir ++ "/") then some n else none

/-- The extension part of os.path.splitext: the suffix of the final path
component from its last dot on, empty when the component has no dot or only
leading dots. -/
def splitextExt (p : String) : String :=
  let base := (basename p).data
  match base.reverse.findIdx? (fun c => c = '.') with
  | none => ""
  | some i =>
    let dotPos := base.length - 1 - i
    if (base.take dotPos).any (fun c => c ≠ '.') then String.mk (base.drop dotPos) else ""

/-! ## Action model (core.history is not among the sources; shapes follow
spec sections 3 and 4.1) -/

/-- The closed set of action variants of spec section 4.1, with the tag
strings used by src/app.py (ActionType enum of core.history). -/
inductive ActionType where
  | metadata_change
  | clear_field
  | batch_metadata
  | album_art_change
  | album_art_delete
  | batch_album_art
  | delete_field
  | batch_delete_field
  | create_field
  | batch_create_field
deriving DecidableEq, Repr

/-- One recorded, undoable mutation, per spec section 3.  The value maps are
association lists from file path to stored value (for art variants the value
is a blob reference).  Timestamps are irrelevant to every claim and omitted. -/
structure HistoryAction where
  id : String
  action_type : ActionType
  files : List String
  field : String
  old_values : List (String × String)
  new_values : List (String × String)
  is_undone : Bool
deriving DecidableEq, Repr

/-- Modelled from the spec: core.history.create_metadata_action builds a
single-file action carrying old and new value for one field (spec 4.1,
MetadataChange / ClearField), with is_undone initially false (spec 3). -/
def create_metadata_action (filepath field old_value new_value : String)
    (action_type : ActionType) : HistoryAction :=
  { id := "", action_type := action_type, files := [filepath], field := field,
    old_values := [(filepath, old_value)], new_values := [(filepath, new_value)],
    is_undone := false }

/-- Modelled from the spec: core.history.create_batch_field_creation_action
builds a BatchCreateField action with per-file new values only (spec 4.1:
old value implicitly absent), is_undone initially false. -/
def create_batch_field_creation_action (files : List String) (field : String)
    (create_values : List (String × String)) : HistoryAction :=
  { id := "", action_type := ActionType.batch_create_field, files := files,
    field := field, old_values := [], new_values := create_values,
    is_undone := false }

/-- Modelled from the spec: history log lookup by id, spec 4.2
(get(id) returns the Action or not-found). -/
def get_action (hist : List HistoryAction) (id : String) : Option HistoryAction :=
  hist.find? (fun a => a.id = id)

/-- The flag mutation action.is_undone = b performed by the undo/redo routes
of src/app.py on the stored action. -/
def set_is_undone (hist : List HistoryAction) (id : String) (b : Bool) :
    List HistoryAction :=
  hist.map (fun a => if a.id = id then { a with is_undone := b } else a)

/-- Pointwise exact-match path substitution. -/
def subst (o n p : String) : String := if p = o then n else p

/-- Apply a path map to every stored path of an action: the files list and
the keys of both value maps. -/
def mapActionPaths (f : String → String) (a : HistoryAction) : HistoryAction :=
  { a with files := a.files.map f,
           old_values := a.old_values.map (fun kv => (f kv.1, kv.2)),
           new_values := a.new_values.map (fun kv => (f kv.1, kv.2)) }

/-- Modelled from the spec: core.history.update_file_references, spec 4.2
rewrite_references — for every stored Action, every occurrence of old_path
in files or in the keys of either value map is replaced by new_path. -/
def update_file_references (old_path new_path : String)
    (hist : List HistoryAction) : List HistoryAction :=
  hist.map (mapActionPaths (subst old_path new_path))

/-- Sequential composition of the pointwise substitutions performed by a list
of update_file_references calls, first pair applied first. -/
def substList : List (String × String) → String → String
  | [], p => p
  | (o, n) :: rest, p => substList rest (subst o n p)

/-! ## Tag codec oracle

The tag codec (core.metadata.writer.apply_metadata_to_file and the
mutagen_handler methods) is an excluded external collaborator (spec section
1); src/app.py only observes, per call, success, a boolean False return, or a
raised exception.  Each codec method is therefore an oracle function whose
result carries exactly that observation: Option String is none on success and
some message on a raised exception; Except String Bool is the returned
boolean or a raised exception. -/

structure Codec where
  /-- apply_metadata_to_file filepath single-field-dict: raises on failure. -/
  apply_metadata_to_file : String → String → String → Option String
  /-- apply_metadata_to_file filepath with empty tags and either art bytes
  (some art) or remove_art=True (none): raises on failure. -/
  apply_album_art : String → Option String → Option String
  /-- mutagen_handler.write_metadata filepath field value. -/
  write_metadata : String → String → String → Except String Bool
  /-- mutagen_handler.delete_field filepath field. -/
  delete_field : String → String → Except String Bool
  /-- mutagen_handler.write_custom_field filepath field value. -/
  write_custom_field : String → String → String → Except String Bool
  /-- history.load_album_art reference: stored blob bytes or not-found
  (art blob store load of spec 4.3; core.history is not among the sources). -/
  load_album_art : String → Option String
  /-- base_format component of core.file_utils.get_file_format. -/
  base_format : String → String
  /-- mutagen_handler.frame_to_field: frame identifier to semantic name. -/
  frame_to_field : List (String × String)
  /-- mutagen_handler.read_existing_metadata. -/
  read_existing_metadata : String → List (String × String)
  /-- mutagen_handler.discover_all_metadata, value of each discovered field. -/
  discover_all_metadata : String → List (String × String)

/-- One actuator call made by a replay or batch loop, for stating which
mutations were attempted and with which arguments. -/
inductive Call where
  | applyMeta (path field value : String)
  | applyArt (path : String) (art : Option String)
  | writeMeta (path field value : String)
  | delField (path field : String)
  | writeCustom (path field value : String)
deriving DecidableEq, Repr

/-- The mutable per-replay aggregate of src/app.py undo_action / redo_action:
files_updated, the errors list, plus the trace of actuator calls made. -/
structure Agg where
  fu : Nat
  errs : List String
  trace : List Call
deriving DecidableEq, Repr

/-- Pairwise combination of aggregates (appending a per-file outcome to the
accumulated one). -/
def Agg.app (x y : Agg) : Agg :=
  ⟨x.fu + y.fu, x.errs ++ y.errs, x.trace ++ y.trace⟩

/-- The independent combination of per-file outcomes over a file list. -/
def aggOf (step : String → Agg) (files : List String) : Agg :=
  ⟨(files.map (fun fp => (step fp).fu)).sum,
   files.flatMap (fun fp => (step fp).errs),
   files.flatMap (fun fp => (step fp).trace)⟩

/-- The per-file error string f-string of src/app.py:
basename of the file, colon, reason. -/
def errMsg (fp e : String) : String := basename fp ++ ": " ++ e

/-- The album-art branch body shared by the art variants of undo_action and
redo_action (src/app.py lines 1378-1386 etc.): a non-empty stored reference
is loaded from the history blob store and re-applied when found non-empty,
otherwise art is removed. -/
def artCommand (c : Codec) (art_path : String) : Option String :=
  if art_path ≠ "" then
    match c.load_album_art art_path with
    | some art => if art ≠ "" then some art else none
    | none => none
  else none

/-- Reverse mapping of a stored field identifier for redo of field creation
(src/app.py lines 1583-1589 and 1607-1613): for mp3 and wav files a frame
identifier found in frame_to_field is mapped back to the semantic name. -/
def createFieldName (c : Codec) (filepath field : String) : String :=
  if c.base_format filepath = "mp3" ∨ c.base_format filepath = "wav" then
    match c.frame_to_field.lookup field with
    | some sem => sem
    | none => field
  else field

/-! ## Replay loops of undo_action and redo_action (src/app.py 1347-1456 and
1494-1621).  A top-level KeyError / IndexError raised outside the per-file
try blocks (single-file variants index files[0] and the value map before
their try) is an Except error; per-file exceptions are collected. -/

/-- The per-file replay of undo (re-apply the old value), per action type. -/
def undoReplay (c : Codec) (a : HistoryAction) : Except String Agg :=
  match a.action_type with
  | .metadata_change | .clear_field =>
    match a.files.head? with
    | none => .error "IndexError"
    | some filepath =>
      match a.old_values.lookup filepath with
      | none => .error "KeyError"
      | some old_value =>
        .ok (match c.apply_metadata_to_file filepath a.field old_value with
          | none => ⟨1, [], [Call.applyMeta filepath a.field old_value]⟩
          | some e => ⟨0, [errMsg filepath e], [Call.applyMeta filepath a.field old_value]⟩)
  | .batch_metadata =>
    .ok (a.files.foldl (fun acc filepath =>
      let old_value := (a.old_values.lookup filepath).getD ""
      match c.apply_metadata_to_file filepath a.field old_value with
      | none => ⟨acc.fu + 1, acc.errs, acc.trace ++ [Call.applyMeta filepath a.field old_value]⟩
      | some e => ⟨acc.fu, acc.errs ++ [errMsg filepath e],
                   acc.trace ++ [Call.applyMeta filepath a.field old_value]⟩) ⟨0, [], []⟩)
  | .album_art_change | .album_art_delete =>
    match a.files.head? with
    | none => .error "IndexError"
    | some filepath =>
      match a.old_values.lookup filepath with
      | none => .error "KeyError"
      | some old_art_path =>
        let cmd := artCommand c old_art_path
        .ok (match c.apply_album_art filepath cmd with
          | none => ⟨1, [], [Call.applyArt filepath cmd]⟩
          | some e => ⟨0, [errMsg filepath e], [Call.applyArt filepath cmd]⟩)
  | .batch_album_art =>
    .ok (a.files.foldl (fun acc filepath =>
      let old_art_path := (a.old_values.lookup filepath).getD ""
      let cmd := artCommand c old_art_path
      match c.apply_album_art filepath cmd with
      | none => ⟨acc.fu + 1, acc.errs, acc.trace ++ [Call.applyArt filepath cmd]⟩
      | some e => ⟨acc.fu, acc.errs ++ [errMsg filepath e],
                   acc.trace ++ [Call.applyArt filepath cmd]⟩) ⟨0, [], []⟩)
  | .delete_field =>
    match a.files.head? with
    | none => .error "IndexError"
    | some filepath =>
      match a.old_values.lookup filepath with
      | none => .error "KeyError"
      | some old_value =>
        .ok (match c.apply_metadata_to_file filepath a.field old_value with
          | none => ⟨1, [], [Call.applyMeta filepath a.field old_value]⟩
          | some e => ⟨0, [errMsg filepath e], [Call.applyMeta filepath a.field old_value]⟩)
  | .batch_delete_field =>
    .ok (a.files.foldl (fun acc filepath =>
      let old_value := (a.old_values.lookup filepath).getD ""
      if old_value ≠ "" then
        match c.write_metadata filepath a.field old_value with
        | .ok true => ⟨acc.fu + 1, acc.errs, acc.trace ++ [Call.writeMeta filepath a.field old_value]⟩
        | .ok false => ⟨acc.fu, acc.errs, acc.trace ++ [Call.writeMeta filepath a.field old_value]⟩
        | .error e => ⟨acc.fu, acc.errs ++ [errMsg filepath e],
                       acc.trace ++ [Call.writeMeta filepath a.field old_value]⟩
      else acc) ⟨0, [], []⟩)
  | .create_field =>
    match a.files.head? with
    | none => .error "IndexError"
    | some filepath =>
      .ok (match c.delete_field filepath a.field with
        | .ok true => ⟨1, [], [Call.delField filepath a.field]⟩
        | .ok false => ⟨0, [errMsg filepath "Failed to delete field"], [Call.delField filepath a.field]⟩
        | .error e => ⟨0, [errMsg filepath e], [Call.delField filepath a.field]⟩)
  | .batch_create_field =>
    .ok (a.files.foldl (fun acc filepath =>
      match c.delete_field filepath a.field with
      | .ok true => ⟨acc.fu + 1, acc.errs, acc.trace ++ [Call.delField filepath a.field]⟩
      | .ok false => ⟨acc.fu, acc.errs ++ [errMsg filepath "Failed to delete field"],
                      acc.trace ++ [Call.delField filepath a.field]⟩
      | .error e => ⟨acc.fu, acc.errs ++ [errMsg filepath e],
                     acc.trace ++ [Call.delField filepath a.field]⟩) ⟨0, [], []⟩)

/-- The per-file replay of redo (re-apply the new value), per action type. -/
def redoReplay (c : Codec) (a : HistoryAction) : Except String Agg :=
  match a.action_type with
  | .metadata_change | .clear_field =>
    match a.files.head? with
    | none => .error "IndexError"
    | some filepath =>
      match a.new_values.lookup filepath with
      | none => .error "KeyError"
      | some new_value =>
        .ok (match c.apply_metadata_to_file filepath a.field new_value with
          | none => ⟨1, [], [Call.applyMeta filepath a.field new_value]⟩
          | some e => ⟨0, [errMsg filepath e], [Call.applyMeta filepath a.field new_value]⟩)
  | .batch_metadata =>
    .ok (a.files.foldl (fun acc filepath =>
      let new_value := (a.new_values.lookup filepath).getD ""
      match c.apply_metadata_to_file filepath a.field new_value with
      | none => ⟨acc.fu + 1, acc.errs, acc.trace ++ [Call.applyMeta filepath a.field new_value]⟩
      | some e => ⟨acc.fu, acc.errs ++ [errMsg filepath e],
                   acc.trace ++ [Call.applyMeta filepath a.field new_value]⟩) ⟨0, [], []⟩)
  | .album_art_change | .album_art_delete =>
    match a.files.head? with
    | none => .error "IndexError"
    | some filepath =>
      match a.new_values.lookup filepath with
      | none => .error "KeyError"
      | some new_art_path =>
        let cmd := artCommand c new_art_path
        .ok (match c.apply_album_art filepath cmd with
          | none => ⟨1, [], [Call.applyArt filepath cmd]⟩
          | some e => ⟨0, [errMsg filepath e], [Call.applyArt filepath cmd]⟩)
  | .batch_album_art =>
    .ok (a.files.foldl (fun acc filepath =>
      let new_art_path := (a.new_values.lookup filepath).getD ""
      let cmd := artCommand c new_art_path
      match c.apply_album_art filepath cmd with
      | none => ⟨acc.fu + 1, acc.errs, acc.trace ++ [Call.applyArt filepath cmd]⟩
      | some e => ⟨acc.fu, acc.errs ++ [errMsg filepath e],
                   acc.trace ++ [Call.applyArt filepath cmd]⟩) ⟨0, [], []⟩)
  | .delete_field =>
    match a.files.head? with
    | none => .error "IndexError"
    | some filepath =>
      .ok (match c.delete_field filepath a.field with
        | .ok _ => ⟨1, [], [Call.delField filepath a.field]⟩
        | .error e => ⟨0, [errMsg filepath e], [Call.delField filepath a.field]⟩)
  | .batch_delete_field =>
    .ok (a.files.foldl (fun acc filepath =>
      match c.delete_field filepath a.field with
      | .ok true => ⟨acc.fu + 1, acc.errs, acc.trace ++ [Call.delField filepath a.field]⟩
      | .ok false => ⟨acc.fu, acc.errs, acc.trace ++ [Call.delField filepath a.field]⟩
      | .error e => ⟨acc.fu, acc.errs ++ [errMsg filepath e],
                     acc.trace ++ [Call.delField filepath a.field]⟩) ⟨0, [], []⟩)
  | .create_field =>
    match a.files.head? with
    | none => .error "IndexError"
    | some filepath =>
      match a.new_values.lookup filepath with
      | none => .error "KeyError"
      | some value =>
        let field := createFieldName c filepath a.field
        .ok (match c.write_custom_field filepath field value with
          | .ok true => ⟨1, [], [Call.writeCustom filepath field value]⟩
          | .ok false => ⟨0, [errMsg filepath "Failed to recreate field"],
                          [Call.writeCustom filepath field value]⟩
          | .error e => ⟨0, [errMsg filepath e], [Call.writeCustom filepath field value]⟩)
  | .batch_create_field =>
    .ok (a.files.foldl (fun acc filepath =>
      let value := (a.new_values.lookup filepath).getD ""
      let field := createFieldName c filepath a.field
      match c.write_custom_field filepath field value with
      | .ok true => ⟨acc.fu + 1, acc.errs, acc.trace ++ [Call.writeCustom filepath field value]⟩
      | .ok false => ⟨acc.fu, acc.errs ++ [errMsg filepath "Failed to recreate field"],
                      acc.trace ++ [Call.writeCustom filepath field value]⟩
      | .error e => ⟨acc.fu, acc.errs ++ [errMsg filepath e],
                     acc.trace ++ [Call.writeCustom filepath field value]⟩) ⟨0, [], []⟩)

/-! ## Aggregate classification and the undo/redo routes -/

/-- The status string computed at the end of undo_action / redo_action:
error when zero files updated, else partial when errors were collected,
else success. -/
def statusOf (fu : Nat) (errs : List String) : String :=
  if fu = 0 then "error" else if errs ≠ [] then "partial" else "success"

/-- HTTP code of the aggregate response: 500 for the zero-updated error,
200 otherwise. -/
def httpOf (fu : Nat) (_errs : List String) : Nat :=
  if fu = 0 then 500 else 200

/-- Outcome of an undo or redo request as observed at the HTTP boundary. -/
inductive UndoResult where
  | notFound
  | alreadyUndone
  | notUndone
  | topError (msg : String)
  | done (status : String) (code : Nat) (filesUpdated : Nat)
         (errors : List String) (trace : List Call)
deriving DecidableEq, Repr

/-- HTTP status code of each outcome (404 unknown id, 400 flag guard,
500 top-level exception, and the aggregate code otherwise). -/
def UndoResult.http : UndoResult → Nat
  | .notFound => 404
  | .alreadyUndone => 400
  | .notUndone => 400
  | .topError _ => 500
  | .done _ code _ _ _ => code

/-- src/app.py undo_action (lines 1337-1482): look the action up, guard on
is_undone, replay old values, set is_undone true, classify the aggregate. -/
def undo_action (c : Codec) (hist : List HistoryAction) (id : String) :
    UndoResult × List HistoryAction :=
  match get_action hist id with
  | none => (.notFound, hist)
  | some action =>
    if action.is_undone then (.alreadyUndone, hist)
    else
      match undoReplay c action with
      | .error m => (.topError m, hist)
      | .ok g =>
        (.done (statusOf g.fu g.errs) (httpOf g.fu g.errs) g.fu g.errs g.trace,
         set_is_undone hist id true)

/-- src/app.py redo_action (lines 1484-1647): look the action up, guard on
not is_undone, replay new values, set is_undone false, classify. -/
def redo_action (c : Codec) (hist : List HistoryAction) (id : String) :
    UndoResult × List HistoryAction :=
  match get_action hist id with
  | none => (.notFound, hist)
  | some action =>
    if ¬ action.is_undone then (.notUndone, hist)
    else
      match redoReplay c action with
      | .error m => (.topError m, hist)
      | .ok g =>
        (.done (statusOf g.fu g.errs) (httpOf g.fu g.errs) g.fu g.errs g.trace,
         set_is_undone hist id false)

/-- Well-formedness used as the eligibility precondition of the replay loop:
non-empty files and the first file present in both value maps (the invariant
of spec section 3 restricted to what the single-file branches index before
their try block). -/
def wfb (a : HistoryAction) : Bool :=
  match a.files.head? with
  | none => false
  | some fp => (a.old_values.lookup fp).isSome && (a.new_values.lookup fp).isSome

/-! ## Per-file outcome of each batch loop body

Each batch branch of the replay is a fold whose body depends only on the
current file; these step functions state that per-file outcome, so that the
fold can be proved equal to the independent combination aggOf. -/

/-- Per-file outcome of the BATCH_METADATA undo loop body. -/
def undoMetaStep (c : Codec) (a : HistoryAction) (fp : String) : Agg :=
  let old_value := (a.old_values.lookup fp).getD ""
  match c.apply_metadata_to_file fp a.field old_value with
  | none => ⟨1, [], [Call.applyMeta fp a.field old_value]⟩
  | some e => ⟨0, [errMsg fp e], [Call.applyMeta fp a.field old_value]⟩

/-- Per-file outcome of the BATCH_METADATA redo loop body. -/
def redoMetaStep (c : Codec) (a : HistoryAction) (fp : String) : Agg :=
  let new_value := (a.new_values.lookup fp).getD ""
  match c.apply_metadata_to_file fp a.field new_value with
  | none => ⟨1, [], [Call.applyMeta fp a.field new_value]⟩
  | some e => ⟨0, [errMsg fp e], [Call.applyMeta fp a.field new_value]⟩

/-- Per-file outcome of the BATCH_ALBUM_ART undo loop body. -/
def undoArtStep (c : Codec) (a : HistoryAction) (fp : String) : Agg :=
  let cmd := artCommand c ((a.old_values.lookup fp).getD "")
  match c.apply_album_art fp cmd with
  | none => ⟨1, [], [Call.applyArt fp cmd]⟩
  | some e => ⟨0, [errMsg fp e], [Call.applyArt fp cmd]⟩

/-- Per-file outcome of the BATCH_ALBUM_ART redo loop body. -/
def redoArtStep (c : Codec) (a : HistoryAction) (fp : String) : Agg :=
  let cmd := artCommand c ((a.new_values.lookup fp).getD "")
  match c.apply_album_art fp cmd with
  | none => ⟨1, [], [Call.applyArt fp cmd]⟩
  | some e => ⟨0, [errMsg fp e], [Call.applyArt fp cmd]⟩

/-- Per-file outcome of the BATCH_DELETE_FIELD undo loop body (files whose
stored old value is empty are skipped without any call). -/
def undoDelStep (c : Codec) (a : HistoryAction) (fp : String) : Agg :=
  let old_value := (a.old_values.lookup fp).getD ""
  if old_value ≠ "" then
    match c.write_metadata fp a.field old_value with
    | .ok true => ⟨1, [], [Call.writeMeta fp a.field old_value]⟩
    | .ok false => ⟨0, [], [Call.writeMeta fp a.field old_value]⟩
    | .error e => ⟨0, [errMsg fp e], [Call.writeMeta fp a.field old_value]⟩
  else ⟨0, [], []⟩

/-- Per-file outcome of the BATCH_DELETE_FIELD redo loop body (a False
return increments nothing and records no error). -/
def redoDelStep (c : Codec) (a : HistoryAction) (fp : String) : Agg :=
  match c.delete_field fp a.field with
  | .ok true => ⟨1, [], [Call.delField fp a.field]⟩
  | .ok false => ⟨0, [], [Call.delField fp a.field]⟩
  | .error e => ⟨0, [errMsg fp e], [Call.delField fp a.field]⟩

/-- Per-file outcome of the BATCH_CREATE_FIELD undo loop body. -/
def undoCreateStep (c : Codec) (a : HistoryAction) (fp : String) : Agg :=
  match c.delete_field fp a.field with
  | .ok true => ⟨1, [], [Call.delField fp a.field]⟩
  | .ok false => ⟨0, [errMsg fp "Failed to delete field"], [Call.delField fp a.field]⟩
  | .error e => ⟨0, [errMsg fp e], [Call.delField fp a.field]⟩

/-- Per-file outcome of the BATCH_CREATE_FIELD redo loop body. -/
def redoCreateStep (c : Codec) (a : HistoryAction) (fp : String) : Agg :=
  let value := (a.new_values.lookup fp).getD ""
  let field := createFieldName c fp a.field
  match c.write_custom_field fp field value with
  | .ok true => ⟨1, [], [Call.writeCustom fp field value]⟩
  | .ok false => ⟨0, [errMsg fp "Failed to recreate field"], [Call.writeCustom fp field value]⟩
  | .error e => ⟨0, [errMsg fp e], [Call.writeCustom fp field value]⟩

/-! ## Single-file metadata update: change tracking (src/app.py set_metadata,
lines 828-850) -/

/-- The normalisation used for comparison: a single-space value counts as
empty. -/
def normSpace (v : String) : String := if v = " " then "" else v

/-- The per-field recording decision of set_metadata: an action is recorded
exactly when the normalised values differ, with type clear_field exactly when
the normalised new value is empty and the normalised old value is not. -/
def trackField (filepath : String) (current_metadata : List (String × String))
    (field new_value : String) : Option HistoryAction :=
  let old_value := (current_metadata.lookup field).getD ""
  let normalized_old := normSpace old_value
  let normalized_new := normSpace new_value
  if normalized_old ≠ normalized_new then
    some (create_metadata_action filepath field old_value new_value
      (if normalized_new = "" ∧ normalized_old ≠ "" then ActionType.clear_field
       else ActionType.metadata_change))
  else none

/-- The field-change tracking loop of set_metadata (src/app.py 834-850):
the art keys are filtered out of the submitted data, and for each remaining
field an action is appended to the history when the normalised old and new
values differ. -/
def set_metadata_track (filepath : String)
    (current_metadata data : List (String × String))
    (hist : List HistoryAction) : List HistoryAction :=
  let metadata_tags := data.filter (fun kv => kv.1 ≠ "art" ∧ kv.1 ≠ "removeArt")
  metadata_tags.foldl (fun h kv =>
    let field := kv.1
    let new_value := kv.2
    let old_value := (current_metadata.lookup field).getD ""
    let normalized_old := normSpace old_value
    let normalized_new := normSpace new_value
    if normalized_old ≠ normalized_new then
      let action_type :=
        if normalized_new = "" ∧ normalized_old ≠ "" then ActionType.clear_field
        else ActionType.metadata_change
      h ++ [create_metadata_action filepath field old_value new_value action_type]
    else h) hist

/-! ## Filesystem state and the folder/file routes of src/app.py

The disk is modelled as the list of existing directories and the list of
existing audio files (absolute normalised paths; only audio-extension files
matter to the walks of the source).  The history list rides along as the
one further piece of state each route may touch. -/

structure SrvState where
  dirs : List String
  audio : List String
  hist : List HistoryAction
deriving DecidableEq, Repr

/-- os.path.exists against the modelled state. -/
def pathExists (st : SrvState) (p : String) : Bool :=
  st.dirs.contains p || st.audio.contains p

/-- Wire-level outcome of the file/folder routes. -/
inductive Resp where
  | err (code : Nat) (msg : String)
  | okPath (newPath : String)
  | okDelete (filesDeleted : Nat)
deriving DecidableEq, Repr

/-- The characters rejected in new folder names (src/app.py lines 434, 610). -/
def invalid_chars : List Char := ['<', '>', ':', '"', '|', '?', '*']

/-- The reserved Windows-compatibility names (src/app.py lines 443-445). -/
def reserved_names : List String :=
  ["CON", "PRN", "AUX", "NUL",
   "COM1", "COM2", "COM3", "COM4", "COM5", "COM6", "COM7", "COM8", "COM9",
   "LPT1", "LPT2", "LPT3", "LPT4", "LPT5", "LPT6", "LPT7", "LPT8", "LPT9"]

/-- The path map a rename or move of folder old to folder new performs on the
disk entries: the folder itself and everything strictly below it relocate. -/
def folderRemap (old new p : String) : String :=
  if p = old then new
  else if strStartsWith p (old ++ "/") then new ++ strDrop p old.length
  else p

/-- src/app.py rename_file (lines 371-413): validate, complete a missing
extension from the old path, refuse an existing target, rename on disk, then
rewrite every history reference from the old to the new path before
answering success. -/
def rename_file (st : SrvState) (musicDir oldPath newName : String) :
    Resp × SrvState :=
  match validate_path musicDir (osJoin musicDir oldPath) with
  | none => (.err 403 "Invalid path", st)
  | some old_path =>
    if ¬ pathExists st old_path then (.err 404 "File not found", st)
    else if newName = "" ∨ strContains newName '/' ∨ strContains newName '\\' then
      (.err 400 "Invalid filename", st)
    else
      let old_ext := strToLower (splitextExt old_path)
      let new_name := if splitextExt newName = "" then newName ++ old_ext else newName
      let new_path := osJoin (dirname old_path) new_name
      if pathExists st new_path ∧ new_path ≠ old_path then
        (.err 400 "File already exists", st)
      else
        let st' : SrvState :=
          { st with
            audio := st.audio.map (fun p => if p = old_path then new_path else p),
            hist := update_file_references old_path new_path st.hist }
        (.okPath (relpathOf musicDir new_path), st')

/-- The audio files the recursive os.walk of rename_folder / move_folder /
delete_folder collects below a folder. -/
def walkAudio (st : SrvState) (folder : String) : List String :=
  st.audio.filter (fun p => strStartsWith p (folder ++ "/"))

/-- src/app.py rename_folder (lines 415-490): validate the new name, refuse
an existing target, collect every audio file below the folder, rename on
disk, then rewrite the history references of every collected file to its
path below the new folder name before answering success. -/
def rename_folder (st : SrvState) (musicDir oldPath newName : String) :
    Resp × SrvState :=
  match validate_path musicDir (osJoin musicDir oldPath) with
  | none => (.err 403 "Invalid path", st)
  | some old_path =>
    if ¬ pathExists st old_path then (.err 404 "Folder not found", st)
    else if ¬ st.dirs.contains old_path then (.err 400 "Path is not a folder", st)
    else if newName = "" ∨ strContains newName '/' ∨ strContains newName '\\' then
      (.err 400 "Invalid folder name", st)
    else if invalid_chars.any (fun ch => strContains newName ch) then
      (.err 400 "Folder name contains invalid characters", st)
    else if newName.length > 255 then (.err 400 "Folder name too long", st)
    else if reserved_names.contains (strToUpper newName) then
      (.err 400 "Reserved folder name", st)
    else
      let parent_dir := dirname old_path
      let new_path := osJoin parent_dir newName
      if pathExists st new_path ∧ new_path ≠ old_path then
        (.err 400 "Folder already exists", st)
      else
        let old_files := walkAudio st old_path
        let st' : SrvState :=
          { dirs := st.dirs.map (folderRemap old_path new_path),
            audio := st.audio.map (folderRemap old_path new_path),
            hist := old_files.foldl (fun h old_file_path =>
              update_file_references old_file_path
                (osJoin new_path (relpathOf old_path old_file_path)) h) st.hist }
        (.okPath (relpathOf musicDir new_path), st')

/-- src/app.py move_folder (lines 492-591): validate both paths, refuse a
move onto itself or into its own subtree, refuse an existing target, collect
every audio file below the source, move on disk, then rewrite the history
references of every collected file to its path below the destination before
answering success. -/
def move_folder (st : SrvState) (musicDir : String)
    (sourcePath destinationPath : Option String) : Resp × SrvState :=
  if sourcePath = none ∨ sourcePath = some "" ∨ destinationPath = none then
    (.err 400 "Missing required parameters", st)
  else
    match validate_path musicDir (osJoin musicDir (sourcePath.getD "")),
          validate_path musicDir (osJoin musicDir (destinationPath.getD "")) with
    | none, _ => (.err 403 "Invalid path", st)
    | some _, none => (.err 403 "Invalid path", st)
    | some source_path, some dest_parent_path =>
      if ¬ pathExists st source_path then (.err 404 "Source folder not found", st)
      else if ¬ st.dirs.contains source_path then
        (.err 400 "Source path is not a folder", st)
      else if ¬ pathExists st dest_parent_path then
        (.err 404 "Destination folder not found", st)
      else if ¬ st.dirs.contains dest_parent_path then
        (.err 400 "Destination path is not a folder", st)
      else
        let folder_name := basename source_path
        let dest_path := osJoin dest_parent_path folder_name
        if dest_path = source_path then
          (.err 400 "Source and destination are the same", st)
        else if strStartsWith dest_parent_path (source_path ++ "/")
                ∨ dest_parent_path = source_path then
          (.err 400 "Cannot move folder into itself or its subdirectories", st)
        else if pathExists st dest_path then
          (.err 400 "A folder with this name already exists in the destination", st)
        else
          let old_files := walkAudio st source_path
          let st' : SrvState :=
            { dirs := st.dirs.map (folderRemap source_path dest_path),
              audio := st.audio.map (folderRemap source_path dest_path),
              hist := old_files.foldl (fun h old_file_path =>
                update_file_references old_file_path
                  (osJoin dest_path (relpathOf source_path old_file_path)) h) st.hist }
          (.okPath (relpathOf musicDir dest_path), st')

/-- src/app.py delete_folder (lines 680-767): an empty folderPath parameter
is rejected first; the root music directory is refused with 403; a non-empty
folder without force is refused with 400; otherwise the subtree (and the
audio files recorded for the report) is removed. -/
def delete_folder (st : SrvState) (musicDir folderPath : String) (force : Bool) :
    Resp × SrvState :=
  if folderPath = "" then (.err 400 "Folder path is required", st)
  else
    match validate_path musicDir (osJoin musicDir folderPath) with
    | none => (.err 403 "Invalid path", st)
    | some abs_folder_path =>
      if ¬ pathExists st abs_folder_path then (.err 404 "Folder not found", st)
      else if ¬ st.dirs.contains abs_folder_path then
        (.err 400 "Path is not a folder", st)
      else if abs_folder_path = musicDir then
        (.err 403 "Cannot delete the root music directory", st)
      else
        let contents :=
          st.dirs.filter (fun p => dirname p = abs_folder_path)
            ++ st.audio.filter (fun p => dirname p = abs_folder_path)
        let is_empty := contents.isEmpty
        if ¬ is_empty ∧ ¬ force then (.err 400 "Folder is not empty", st)
        else
          let deleted_files := if is_empty then [] else walkAudio st abs_folder_path
          let st' : SrvState :=
            { st with
              dirs := st.dirs.filter (fun p =>
                ¬ (p = abs_folder_path ∨ strStartsWith p (abs_folder_path ++ "/"))),
              audio := st.audio.filter (fun p =>
                ¬ strStartsWith p (abs_folder_path ++ "/")) }
          (.okDelete deleted_files.length, st')

/-! ## Batch field creation route (src/app.py create_custom_field,
lines 928-1044; the apply_to_folder branch) -/

/-- The Python or-chain over optional reads: the first present, non-empty
value, else the empty string. -/
def firstTruthy : List (Option String) → String
  | [] => ""
  | some v :: rest => if v ≠ "" then v else firstTruthy rest
  | none :: rest => firstTruthy rest

/-- Mutable loop state of the apply_to_folder branch: the two counters, the
errors list, the files and values put aside for the batch creation action,
and the history. -/
structure CFAcc where
  filesCreated : Nat
  filesUpdated : Nat
  errors : List String
  files_to_create : List String
  create_values : List (String × String)
  hist : List HistoryAction
deriving Repr

/-- Aggregate result of the apply_to_folder branch as serialised to the
client. -/
structure CreateFolderResult where
  status : String
  filesCreated : Nat
  filesUpdated : Nat
  errors : List String
  message : String
deriving DecidableEq, Repr

/-- Whether the field already exists on the file, checked against both reads
under the given and the uppercased name (src/app.py lines 986-989). -/
def fieldExistsOn (c : Codec) (fp field_name : String) : Bool :=
  ((c.read_existing_metadata fp).lookup field_name).isSome
    || ((c.read_existing_metadata fp).lookup (strToUpper field_name)).isSome
    || ((c.discover_all_metadata fp).lookup field_name).isSome
    || ((c.discover_all_metadata fp).lookup (strToUpper field_name)).isSome

/-- The value actually written: an empty requested value becomes a single
space unless the base format is flac, ogg or opus (src/app.py 992-997). -/
def valueToWrite (c : Codec) (fp field_value : String) : String :=
  if field_value = ""
     ∧ ¬ (c.base_format fp = "flac" ∨ c.base_format fp = "ogg" ∨ c.base_format fp = "opus")
  then " " else field_value

/-- src/app.py create_custom_field with apply_to_folder (lines 928-1044):
after the field-name validations, every audio file directly inside the
folder of the given file is categorised as update (an individual metadata
action is recorded) or creation (put aside for one batch action), the field
is written through the codec, failures are collected per file, and the
aggregate is classified: error with message No files were processed when
zero files were processed, partial when some errors were collected, success
otherwise. -/
def create_custom_field_folder (c : Codec) (st : SrvState)
    (musicDir filepath field_name field_value : String) :
    Except (String × Nat) (CreateFolderResult × List HistoryAction) :=
  if field_name = "" ∨ filepath = "" then
    .error ("Missing required fields", 400)
  else if field_name.length > 50 then
    .error ("Field name must be 50 characters or less", 400)
  else if strContains field_name (Char.ofNat 0) then
    .error ("Field name contains invalid characters", 400)
  else if ¬ (field_name.toList.all (fun ch => ch.isAlphanum ∨ ch = '_' ∨ ch = ' ')) then
    .error ("Invalid field name. Only alphanumeric characters, underscores, and spaces are allowed.", 400)
  else
    let folder_path := dirname (osJoin musicDir filepath)
    let audio_files := st.audio.filter (fun p => dirname p = folder_path)
    let acc0 : CFAcc := ⟨0, 0, [], [], [], st.hist⟩
    let accF := audio_files.foldl (fun acc fp =>
      let existing := c.read_existing_metadata fp
      let discovered := c.discover_all_metadata fp
      let field_exists := fieldExistsOn c fp field_name
      let value_to_write := valueToWrite c fp field_value
      let acc1 :=
        if field_exists then
          let old_value := firstTruthy
            [existing.lookup field_name, existing.lookup (strToUpper field_name),
             discovered.lookup field_name, discovered.lookup (strToUpper field_name)]
          { acc with hist := acc.hist
              ++ [create_metadata_action fp field_name old_value value_to_write
                    ActionType.metadata_change] }
        else
          { acc with files_to_create := acc.files_to_create ++ [fp],
                     create_values := acc.create_values ++ [(fp, value_to_write)] }
      match c.write_custom_field fp field_name value_to_write with
      | .ok true =>
        if field_exists then { acc1 with filesUpdated := acc1.filesUpdated + 1 }
        else { acc1 with filesCreated := acc1.filesCreated + 1 }
      | .ok false =>
        { acc1 with errors := acc1.errors ++ [basename fp ++ ": Failed to write field"] }
      | .error e =>
        { acc1 with errors := acc1.errors ++ [basename fp ++ ": " ++ e] }) acc0
    let acc2 :=
      if accF.files_to_create ≠ [] then
        { accF with hist := accF.hist
            ++ [create_batch_field_creation_action accF.files_to_create field_name
                  accF.create_values] }
      else accF
    let total_processed := acc2.filesCreated + acc2.filesUpdated
    if total_processed = 0 then
      .ok ({ status := "error", filesCreated := acc2.filesCreated,
             filesUpdated := acc2.filesUpdated, errors := acc2.errors,
             message := "No files were processed" }, acc2.hist)
    else if acc2.errors ≠ [] then
      .ok ({ status := "partial", filesCreated := acc2.filesCreated,
             filesUpdated := acc2.filesUpdated, errors := acc2.errors,
             message := "Created in " ++ toString acc2.filesCreated
               ++ " files, updated in " ++ toString acc2.filesUpdated
               ++ " files, " ++ toString acc2.errors.length ++ " errors" }, acc2.hist)
    else
      .ok ({ status := "success", filesCreated := acc2.filesCreated,
             filesUpdated := acc2.filesUpdated, errors := acc2.errors,
             message := "Created in " ++ toString acc2.filesCreated
               ++ " files, updated in " ++ toString acc2.filesUpdated
               ++ " files" }, acc2.hist)

/-! ## Concrete fixtures used by the witnesses -/

/-- A codec on which every actuator call succeeds. -/
def okCodec : Codec :=
  { apply_metadata_to_file := fun _ _ _ => none,
    apply_album_art := fun _ _ => none,
    write_metadata := fun _ _ _ => .ok true,
    delete_field := fun _ _ => .ok true,
    write_custom_field := fun _ _ _ => .ok true,
    load_album_art := fun _ => none,
    base_format := fun _ => "flac",
    frame_to_field := [],
    read_existing_metadata := fun _ => [],
    discover_all_metadata := fun _ => [] }

/-- A codec whose metadata write raises only for the nested second file. -/
def oneFailCodec : Codec :=
  { okCodec with apply_metadata_to_file := fun p _ _ =>
      if p = "/music/A/sub/t2.mp3" then some "Permission denied" else none }

/-- A codec whose metadata write always raises. -/
def allFailCodec : Codec :=
  { okCodec with apply_metadata_to_file := fun _ _ _ => some "boom" }

/-- A codec reporting every file as mp3 with one frame-to-field entry. -/
def mp3Codec : Codec :=
  { okCodec with base_format := fun _ => "mp3",
                 frame_to_field := [("TPE2", "albumartist")] }

/-- A single-file metadata change action. -/
def actSingle : HistoryAction :=
  { id := "a1", action_type := ActionType.metadata_change,
    files := ["/music/A/t1.mp3"], field := "title",
    old_values := [("/music/A/t1.mp3", "Alice")],
    new_values := [("/music/A/t1.mp3", "Bob")], is_undone := false }

/-- A two-file batch metadata action over a folder with a nested file. -/
def actBatch : HistoryAction :=
  { id := "b1", action_type := ActionType.batch_metadata,
    files := ["/music/A/t1.mp3", "/music/A/sub/t2.mp3"], field := "title",
    old_values := [("/music/A/t1.mp3", "x"), ("/music/A/sub/t2.mp3", "y")],
    new_values := [("/music/A/t1.mp3", "u"), ("/music/A/sub/t2.mp3", "v")],
    is_undone := false }

/-- An undone single-file field creation action storing an mp3 frame id. -/
def actCreate : HistoryAction :=
  { id := "c1", action_type := ActionType.create_field,
    files := ["/music/A/t1.mp3"], field := "TPE2",
    old_values := [("/music/A/t1.mp3", "")],
    new_values := [("/music/A/t1.mp3", "The Band")], is_undone := true }

/-- An undone batch field creation action storing an mp3 frame id. -/
def actBatchCreate : HistoryAction :=
  { id := "d1", action_type := ActionType.batch_create_field,
    files := ["/music/A/t1.mp3", "/music/A/sub/t2.mp3"], field := "TPE2",
    old_values := [],
    new_values := [("/music/A/t1.mp3", "The Band"), ("/music/A/sub/t2.mp3", "The Band")],
    is_undone := true }

/-- A small music tree with one batch action in the history. -/
def baseSt : SrvState :=
  { dirs := ["/music", "/music/A", "/music/A/sub", "/music/B"],
    audio := ["/music/A/t1.mp3", "/music/A/sub/t2.mp3", "/music/B/t3.mp3"],
    hist := [actBatch] }

/-! ## General lemmas -/

theorem Agg.app_def (x y : Agg) :
    Agg.app x y = ⟨x.fu + y.fu, x.errs ++ y.errs, x.trace ++ y.trace⟩ := rfl

theorem Agg.app_nilRight (x : Agg) : Agg.app x ⟨0, [], []⟩ = x := by
  cases x; simp [Agg.app]

theorem Agg.app_nilLeft (x : Agg) : Agg.app ⟨0, [], []⟩ x = x := by
  cases x; simp [Agg.app]

theorem Agg.app_assoc (x y z : Agg) :
    Agg.app (Agg.app x y) z = Agg.app x (Agg.app y z) := by
  cases x; cases y; cases z; simp [Agg.app, Nat.add_assoc]

theorem aggOf_nil (step : String → Agg) : aggOf step [] = ⟨0, [], []⟩ := rfl

theorem aggOf_cons (step : String → Agg) (fp : String) (files : List String) :
    aggOf step (fp :: files) = Agg.app (step fp) (aggOf step files) := by
  simp [aggOf, Agg.app]

/-- A fold whose body appends a per-file outcome to the accumulator computes
the independent combination aggOf: no file influences the treatment of any
other. -/
theorem foldl_agg_factor (body : Agg → String → Agg) (step : String → Agg)
    (hb : ∀ acc fp, body acc fp = Agg.app acc (step fp)) :
    ∀ (files : List String) (acc : Agg),
      files.foldl body acc = Agg.app acc (aggOf step files) := by
  intro files
  induction files with
  | nil => intro acc; simp [aggOf_nil, Agg.app_nilRight]
  | cons fp rest ih =>
    intro acc
    simp only [List.foldl_cons, hb, ih, aggOf_cons, Agg.app_assoc]

theorem mem_aggOf_errs (step : String → Agg) (files : List String) (fp : String)
    (hfp : fp ∈ files) : ∀ x ∈ (step fp).errs, x ∈ (aggOf step files).errs := by
  intro x hx
  simp only [aggOf]
  exact List.mem_flatMap.mpr ⟨fp, hfp, hx⟩

theorem mem_aggOf_trace (step : String → Agg) (files : List String) (fp : String)
    (hfp : fp ∈ files) : ∀ x ∈ (step fp).trace, x ∈ (aggOf step files).trace := by
  intro x hx
  simp only [aggOf]
  exact List.mem_flatMap.mpr ⟨fp, hfp, hx⟩

/-- Lookup after the flag write: the same action with the flag set. -/
theorem get_action_set_is_undone (hist : List HistoryAction) (id : String)
    (a : HistoryAction) (b : Bool) (h : get_action hist id = some a) :
    get_action (set_is_undone hist id b) id = some { a with is_undone := b } := by
  induction hist with
  | nil => simp [get_action] at h
  | cons x rest ih =>
    by_cases hx : x.id = id
    · simp_all [get_action, set_is_undone, List.find?]
    · simp_all [get_action, set_is_undone, List.find?]

/-- The well-formedness check ignores the undo flag. -/
theorem wfb_set_flag (a : HistoryAction) (b : Bool) :
    wfb { a with is_undone := b } = wfb a := rfl

theorem undo_action_notFound_eq (c : Codec) (hist : List HistoryAction) (id : String)
    (h : get_action hist id = none) : undo_action c hist id = (UndoResult.notFound, hist) := by
  simp [undo_action, h]

theorem redo_action_notFound_eq (c : Codec) (hist : List HistoryAction) (id : String)
    (h : get_action hist id = none) : redo_action c hist id = (UndoResult.notFound, hist) := by
  simp [redo_action, h]

theorem undo_action_already_eq (c : Codec) (hist : List HistoryAction) (id : String)
    (a : HistoryAction) (ha : get_action hist id = some a) (hu : a.is_undone = true) :
    undo_action c hist id = (UndoResult.alreadyUndone, hist) := by
  simp [undo_action, ha, hu]

theorem redo_action_notUndone_eq (c : Codec) (hist : List HistoryAction) (id : String)
    (a : HistoryAction) (ha : get_action hist id = some a) (hn : a.is_undone = false) :
    redo_action c hist id = (UndoResult.notUndone, hist) := by
  simp [redo_action, ha, hn]

theorem undo_action_run_eq (c : Codec) (hist : List HistoryAction) (id : String)
    (a : HistoryAction) (g : Agg) (ha : get_action hist id = some a)
    (hn : a.is_undone = false) (hg : undoReplay c a = Except.ok g) :
    undo_action c hist id
      = (UndoResult.done (statusOf g.fu g.errs) (httpOf g.fu g.errs) g.fu g.errs g.trace,
         set_is_undone hist id true) := by
  simp [undo_action, ha, hn, hg]

theorem redo_action_run_eq (c : Codec) (hist : List HistoryAction) (id : String)
    (a : HistoryAction) (g : Agg) (ha : get_action hist id = some a)
    (hu : a.is_undone = true) (hg : redoReplay c a = Except.ok g) :
    redo_action c hist id
      = (UndoResult.done (statusOf g.fu g.errs) (httpOf g.fu g.errs) g.fu g.errs g.trace,
         set_is_undone hist id false) := by
  simp [redo_action, ha, hu, hg]

/-- A well-formed action replays without a top-level exception on undo. -/
theorem undoReplay_ok (c : Codec) (a : HistoryAction) (h : wfb a = true) :
    ∃ g, undoReplay c a = Except.ok g := by
  unfold wfb at h
  cases hh : a.files.head? with
  | none => rw [hh] at h; simp at h
  | some fp =>
    rw [hh] at h
    simp only [Bool.and_eq_true, Option.isSome_iff_exists] at h
    obtain ⟨⟨ov, hov⟩, ⟨nv, hnv⟩⟩ := h
    cases ht : a.action_type <;>
      simp [undoReplay, ht, hh, hov, hnv]

/-- A well-formed action replays without a top-level exception on redo. -/
theorem redoReplay_ok (c : Codec) (a : HistoryAction) (h : wfb a = true) :
    ∃ g, redoReplay c a = Except.ok g := by
  unfold wfb at h
  cases hh : a.files.head? with
  | none => rw [hh] at h; simp at h
  | some fp =>
    rw [hh] at h
    simp only [Bool.and_eq_true, Option.isSome_iff_exists] at h
    obtain ⟨⟨ov, hov⟩, ⟨nv, hnv⟩⟩ := h
    cases ht : a.action_type <;>
      simp [redoReplay, ht, hh, hov, hnv]

theorem mapActionPaths_id (a : HistoryAction) :
    mapActionPaths (fun q => q) a = a := by
  cases a; simp [mapActionPaths]

theorem mapActionPaths_comp (f g : String → String) (a : HistoryAction) :
    mapActionPaths f (mapActionPaths g a) = mapActionPaths (fun q => f (g q)) a := by
  cases a
  simp [mapActionPaths, List.map_map, Function.comp_def]

/-- A sequence of single-path reference updates acts on the history as the
pointwise composition of the individual substitutions. -/
theorem foldl_update_refs (newOf : String → String) (olds : List String)
    (hist : List HistoryAction) :
    olds.foldl (fun h of => update_file_references of (newOf of) h) hist
      = hist.map (mapActionPaths (substList (olds.map (fun o => (o, newOf o))))) := by
  induction olds generalizing hist with
  | nil =>
    simp only [List.foldl_nil, List.map_nil]
    have : ∀ a, mapActionPaths (substList []) a = a := fun a => mapActionPaths_id a
    calc hist = hist.map (fun a => a) := by simp
      _ = hist.map (mapActionPaths (substList [])) := by
            apply List.map_congr_left; intro a _; exact (this a).symm
  | cons o rest ih =>
    simp only [List.foldl_cons, List.map_cons]
    rw [ih, update_file_references, List.map_map]
    apply List.map_congr_left
    intro a _
    simp only [Function.comp_def]
    rw [mapActionPaths_comp]
    rfl

/-- When the rewritten sources are distinct and no rewritten target is again
a source, the composed substitution is the simple simultaneous one. -/
theorem substList_map_eq (olds : List String) (newOf : String → String)
    (hnd : olds.Nodup) (hdisj : ∀ p ∈ olds, newOf p ∉ olds) (q : String) :
    substList (olds.map (fun o => (o, newOf o))) q
      = if q ∈ olds then newOf q else q := by
  revert hnd hdisj
  induction olds generalizing q with
  | nil => intro hnd hdisj; simp [substList]
  | cons o rest ih =>
    intro hnd hdisj
    have hnd' : rest.Nodup := hnd.of_cons
    have hdisj' : ∀ p ∈ rest, newOf p ∉ rest := fun p hp hmem =>
      hdisj p (List.mem_cons_of_mem _ hp) (List.mem_cons_of_mem _ hmem)
    by_cases hq : q = o
    · subst hq
      have hout : newOf q ∉ rest := fun hmem =>
        hdisj q (List.mem_cons_self _ _) (List.mem_cons_of_mem _ hmem)
      have hstep : substList ((q, newOf q) :: rest.map (fun o => (o, newOf o))) q
          = substList (rest.map (fun o => (o, newOf o))) (newOf q) := by
        simp [substList, subst]
      rw [List.map_cons, hstep, ih (newOf q) hnd' hdisj', if_neg hout,
        if_pos (List.mem_cons_self _ _)]
    · have hstep : substList ((o, newOf o) :: rest.map (fun o => (o, newOf o))) q
          = substList (rest.map (fun o => (o, newOf o))) q := by
        simp [substList, subst, hq]
      rw [List.map_cons, hstep, ih q hnd' hdisj']
      by_cases hqr : q ∈ rest
      · rw [if_pos hqr, if_pos (List.mem_cons_of_mem _ hqr)]
      · rw [if_neg hqr, if_neg (by simp [hq, hqr])]

/-- The reference-rewriting loop of the folder rename and move routes: the
resulting history is the original one with every collected path mapped to
its relocated counterpart. -/
theorem hist_fold_rewrite (olds : List String) (newOf : String → String)
    (hist : List HistoryAction) (hnd : olds.Nodup)
    (hdisj : ∀ p ∈ olds, newOf p ∉ olds) :
    olds.foldl (fun h of => update_file_references of (newOf of) h) hist
      = hist.map (mapActionPaths (fun q => if q ∈ olds then newOf q else q)) := by
  rw [foldl_update_refs]
  have : substList (olds.map (fun o => (o, newOf o)))
      = fun q => if q ∈ olds then newOf q else q :=
    funext (substList_map_eq olds newOf hnd hdisj)
  rw [this]

/-- The BATCH_METADATA undo loop computes the independent per-file
combination. -/
theorem undoReplay_batch_metadata (c : Codec) (a : HistoryAction)
    (h : a.action_type = ActionType.batch_metadata) :
    undoReplay c a = Except.ok (aggOf (undoMetaStep c a) a.files) := by
  have hfold := foldl_agg_factor
    (fun (acc : Agg) (filepath : String) =>
      let old_value := (a.old_values.lookup filepath).getD ""
      match c.apply_metadata_to_file filepath a.field old_value with
      | none => (⟨acc.fu + 1, acc.errs, acc.trace ++ [Call.applyMeta filepath a.field old_value]⟩ : Agg)
      | some e => ⟨acc.fu, acc.errs ++ [errMsg filepath e],
                   acc.trace ++ [Call.applyMeta filepath a.field old_value]⟩)
    (undoMetaStep c a)
    (fun acc fp => by
      simp only [undoMetaStep]
      cases hc : c.apply_metadata_to_file fp a.field ((a.old_values.lookup fp).getD "") <;>
        simp [Agg.app, hc])
    a.files ⟨0, [], []⟩
  rw [Agg.app_nilLeft] at hfold
  simp only [undoReplay, h]
  exact congrArg Except.ok hfold

/-- The BATCH_METADATA redo loop computes the independent per-file
combination. -/
theorem redoReplay_batch_metadata (c : Codec) (a : HistoryAction)
    (h : a.action_type = ActionType.batch_metadata) :
    redoReplay c a = Except.ok (aggOf (redoMetaStep c a) a.files) := by
  have hfold := foldl_agg_factor
    (fun (acc : Agg) (filepath : String) =>
      let new_value := (a.new_values.lookup filepath).getD ""
      match c.apply_metadata_to_file filepath a.field new_value with
      | none => (⟨acc.fu + 1, acc.errs, acc.trace ++ [Call.applyMeta filepath a.field new_value]⟩ : Agg)
      | some e => ⟨acc.fu, acc.errs ++ [errMsg filepath e],
                   acc.trace ++ [Call.applyMeta filepath a.field new_value]⟩)
    (redoMetaStep c a)
    (fun acc fp => by
      simp only [redoMetaStep]
      cases hc : c.apply_metadata_to_file fp a.field ((a.new_values.lookup fp).getD "") <;>
        simp [Agg.app, hc])
    a.files ⟨0, [], []⟩
  rw [Agg.app_nilLeft] at hfold
  simp only [redoReplay, h]
  exact congrArg Except.ok hfold

/-- The BATCH_ALBUM_ART undo loop computes the independent per-file
combination. -/
theorem undoReplay_batch_album_art (c : Codec) (a : HistoryAction)
    (h : a.action_type = ActionType.batch_album_art) :
    undoReplay c a = Except.ok (aggOf (undoArtStep c a) a.files) := by
  have hfold := foldl_agg_factor
    (fun (acc : Agg) (filepath : String) =>
      let old_art_path := (a.old_values.lookup filepath).getD ""
      let cmd := artCommand c old_art_path
      match c.apply_album_art filepath cmd with
      | none => (⟨acc.fu + 1, acc.errs, acc.trace ++ [Call.applyArt filepath cmd]⟩ : Agg)
      | some e => ⟨acc.fu, acc.errs ++ [errMsg filepath e],
                   acc.trace ++ [Call.applyArt filepath cmd]⟩)
    (undoArtStep c a)
    (fun acc fp => by
      simp only [undoArtStep]
      cases hc : c.apply_album_art fp (artCommand c ((a.old_values.lookup fp).getD "")) <;>
        simp [Agg.app, hc])
    a.files ⟨0, [], []⟩
  rw [Agg.app_nilLeft] at hfold
  simp only [undoReplay, h]
  exact congrArg Except.ok hfold

/-- The BATCH_ALBUM_ART redo loop computes the independent per-file
combination. -/
theorem redoReplay_batch_album_art (c : Codec) (a : HistoryAction)
    (h : a.action_type = ActionType.batch_album_art) :
    redoReplay c a = Except.ok (aggOf (redoArtStep c a) a.files) := by
  have hfold := foldl_agg_factor
    (fun (acc : Agg) (filepath : String) =>
      let new_art_path := (a.new_values.lookup filepath).getD ""
      let cmd := artCommand c new_art_path
      match c.apply_album_art filepath cmd with
      | none => (⟨acc.fu + 1, acc.errs, acc.trace ++ [Call.applyArt filepath cmd]⟩ : Agg)
      | some e => ⟨acc.fu, acc.errs ++ [errMsg filepath e],
                   acc.trace ++ [Call.applyArt filepath cmd]⟩)
    (redoArtStep c a)
    (fun acc fp => by
      simp only [redoArtStep]
      cases hc : c.apply_album_art fp (artCommand c ((a.new_values.lookup fp).getD "")) <;>
        simp [Agg.app, hc])
    a.files ⟨0, [], []⟩
  rw [Agg.app_nilLeft] at hfold
  simp only [redoReplay, h]
  exact congrArg Except.ok hfold

/-- The BATCH_DELETE_FIELD undo loop computes the independent per-file
combination. -/
theorem undoReplay_batch_delete_field (c : Codec) (a : HistoryAction)
    (h : a.action_type = ActionType.batch_delete_field) :
    undoReplay c a = Except.ok (aggOf (undoDelStep c a) a.files) := by
  have hfold := foldl_agg_factor
    (fun (acc : Agg) (filepath : String) =>
      let old_value := (a.old_values.lookup filepath).getD ""
      if old_value ≠ "" then
        match c.write_metadata filepath a.field old_value with
        | .ok true => (⟨acc.fu + 1, acc.errs, acc.trace ++ [Call.writeMeta filepath a.field old_value]⟩ : Agg)
        | .ok false => ⟨acc.fu, acc.errs, acc.trace ++ [Call.writeMeta filepath a.field old_value]⟩
        | .error e => ⟨acc.fu, acc.errs ++ [errMsg filepath e],
                       acc.trace ++ [Call.writeMeta filepath a.field old_value]⟩
      else acc)
    (undoDelStep c a)
    (fun acc fp => by
      simp only [undoDelStep]
      by_cases hv : ((a.old_values.lookup fp).getD "") = ""
      · simp [Agg.app, hv]
      · cases hc : c.write_metadata fp a.field ((a.old_values.lookup fp).getD "") with
        | ok b => cases b <;> simp [Agg.app, hc, hv]
        | error e => simp [Agg.app, hc, hv])
    a.files ⟨0, [], []⟩
  rw [Agg.app_nilLeft] at hfold
  simp only [undoReplay, h]
  exact congrArg Except.ok hfold

/-- The BATCH_DELETE_FIELD redo loop computes the independent per-file
combination. -/
theorem redoReplay_batch_delete_field (c : Codec) (a : HistoryAction)
    (h : a.action_type = ActionType.batch_delete_field) :
    redoReplay c a = Except.ok (aggOf (redoDelStep c a) a.files) := by
  have hfold := foldl_agg_factor
    (fun (acc : Agg) (filepath : String) =>
      match c.delete_field filepath a.field with
      | .ok true => (⟨acc.fu + 1, acc.errs, acc.trace ++ [Call.delField filepath a.field]⟩ : Agg)
      | .ok false => ⟨acc.fu, acc.errs, acc.trace ++ [Call.delField filepath a.field]⟩
      | .error e => ⟨acc.fu, acc.errs ++ [errMsg filepath e],
                     acc.trace ++ [Call.delField filepath a.field]⟩)
    (redoDelStep c a)
    (fun acc fp => by
      simp only [redoDelStep]
      cases hc : c.delete_field fp a.field with
      | ok b => cases b <;> simp [Agg.app, hc]
      | error e => simp [Agg.app, hc])
    a.files ⟨0, [], []⟩
  rw [Agg.app_nilLeft] at hfold
  simp only [redoReplay, h]
  exact congrArg Except.ok hfold

/-- The BATCH_CREATE_FIELD undo loop computes the independent per-file
combination. -/
theorem undoReplay_batch_create_field (c : Codec) (a : HistoryAction)
    (h : a.action_type = ActionType.batch_create_field) :
    undoReplay c a = Except.ok (aggOf (undoCreateStep c a) a.files) := by
  have hfold := foldl_agg_factor
    (fun (acc : Agg) (filepath : String) =>
      match c.delete_field filepath a.field with
      | .ok true => (⟨acc.fu + 1, acc.errs, acc.trace ++ [Call.delField filepath a.field]⟩ : Agg)
      | .ok false => ⟨acc.fu, acc.errs ++ [errMsg filepath "Failed to delete field"],
                      acc.trace ++ [Call.delField filepath a.field]⟩
      | .error e => ⟨acc.fu, acc.errs ++ [errMsg filepath e],
                     acc.trace ++ [Call.delField filepath a.field]⟩)
    (undoCreateStep c a)
    (fun acc fp => by
      simp only [undoCreateStep]
      cases hc : c.delete_field fp a.field with
      | ok b => cases b <;> simp [Agg.app, hc]
      | error e => simp [Agg.app, hc])
    a.files ⟨0, [], []⟩
  rw [Agg.app_nilLeft] at hfold
  simp only [undoReplay, h]
  exact congrArg Except.ok hfold

/-- The BATCH_CREATE_FIELD redo loop computes the independent per-file
combination. -/
theorem redoReplay_batch_create_field (c : Codec) (a : HistoryAction)
    (h : a.action_type = ActionType.batch_create_field) :
    redoReplay c a = Except.ok (aggOf (redoCreateStep c a) a.files) := by
  have hfold := foldl_agg_factor
    (fun (acc : Agg) (filepath : String) =>
      let value := (a.new_values.lookup filepath).getD ""
      let field := createFieldName c filepath a.field
      match c.write_custom_field filepath field value with
      | .ok true => (⟨acc.fu + 1, acc.errs, acc.trace ++ [Call.writeCustom filepath field value]⟩ : Agg)
      | .ok false => ⟨acc.fu, acc.errs ++ [errMsg filepath "Failed to recreate field"],
                      acc.trace ++ [Call.writeCustom filepath field value]⟩
      | .error e => ⟨acc.fu, acc.errs ++ [errMsg filepath e],
                     acc.trace ++ [Call.writeCustom filepath field value]⟩)
    (redoCreateStep c a)
    (fun acc fp => by
      simp only [redoCreateStep]
      cases hc : c.write_custom_field fp (createFieldName c fp a.field)
          ((a.new_values.lookup fp).getD "") with
      | ok b => cases b <;> simp [Agg.app, hc]
      | error e => simp [Agg.app, hc])
    a.files ⟨0, [], []⟩
  rw [Agg.app_nilLeft] at hfold
  simp only [redoReplay, h]
  exact congrArg Except.ok hfold

/-! ## Claims -/

/-- Claim C1: undo fails with NotFound (HTTP 404) when no action with the id
exists and with AlreadyUndone (HTTP 400) when is_undone is already true;
redo fails with NotFound when the id is unknown and with NotUndone when
is_undone is false; and for a freshly appended (not yet undone, well-formed)
action, undo then undo returns AlreadyUndone, and undo then redo then redo
returns NotUndone. -/
theorem c1_undo_redo_guards (c : Codec) (hist : List HistoryAction) (id : String) :
    (get_action hist id = none →
      (undo_action c hist id).1 = UndoResult.notFound
      ∧ (redo_action c hist id).1 = UndoResult.notFound
      ∧ UndoResult.notFound.http = 404)
    ∧ (∀ a, get_action hist id = some a → a.is_undone = true →
      (undo_action c hist id).1 = UndoResult.alreadyUndone
      ∧ UndoResult.alreadyUndone.http = 400)
    ∧ (∀ a, get_action hist id = some a → a.is_undone = false →
      (redo_action c hist id).1 = UndoResult.notUndone
      ∧ UndoResult.notUndone.http = 400)
    ∧ (∀ a, get_action hist id = some a → a.is_undone = false → wfb a = true →
      (undo_action c ((undo_action c hist id).2) id).1 = UndoResult.alreadyUndone
      ∧ (redo_action c ((redo_action c ((undo_action c hist id).2) id).2) id).1
          = UndoResult.notUndone) := by
  refine ⟨fun h => ?_, fun a ha hu => ?_, fun a ha hn => ?_, fun a ha hn hwf => ?_⟩
  · simp [undo_action, redo_action, h, UndoResult.http]
  · simp [undo_action, ha, hu, UndoResult.http]
  · simp [redo_action, ha, hn, UndoResult.http]
  · obtain ⟨g, hg⟩ := undoReplay_ok c a hwf
    have hrun := undo_action_run_eq c hist id a g ha hn hg
    have ha1 : get_action ((undo_action c hist id).2) id
        = some { a with is_undone := true } := by
      rw [hrun]; exact get_action_set_is_undone hist id a true ha
    constructor
    · rw [undo_action_already_eq c ((undo_action c hist id).2) id
        { a with is_undone := true } ha1 rfl]
    · obtain ⟨g2, hg2⟩ := redoReplay_ok c { a with is_undone := true }
        (by rw [wfb_set_flag]; exact hwf)
      have hrun2 := redo_action_run_eq c ((undo_action c hist id).2) id
        { a with is_undone := true } g2 ha1 rfl hg2
      have ha2 : get_action ((redo_action c ((undo_action c hist id).2) id).2) id
          = some { a with is_undone := false } := by
        rw [hrun2]
        exact get_action_set_is_undone _ id { a with is_undone := true } false ha1
      rw [redo_action_notUndone_eq c ((redo_action c ((undo_action c hist id).2) id).2) id
        { a with is_undone := false } ha2 rfl]

/-- Witness for C1 at a concrete history, codec and id. -/
theorem c1_undo_redo_guards_witness :
    (get_action [actSingle] "zz" = none
      ∧ (undo_action okCodec [actSingle] "zz").1 = UndoResult.notFound)
    ∧ (get_action [actSingle] "a1" = some actSingle ∧ actSingle.is_undone = false
        ∧ wfb actSingle = true
      ∧ (undo_action okCodec ((undo_action okCodec [actSingle] "a1").2) "a1").1
          = UndoResult.alreadyUndone
      ∧ (redo_action okCodec
            ((redo_action okCodec ((undo_action okCodec [actSingle] "a1").2) "a1").2) "a1").1
          = UndoResult.notUndone) := by
  refine ⟨⟨by decide, ((c1_undo_redo_guards okCodec [actSingle] "zz").1 (by decide)).1⟩,
          by decide, by decide, by decide, ?_, ?_⟩
  · exact ((c1_undo_redo_guards okCodec [actSingle] "a1").2.2.2 actSingle
      (by decide) (by decide) (by decide)).1
  · exact ((c1_undo_redo_guards okCodec [actSingle] "a1").2.2.2 actSingle
      (by decide) (by decide) (by decide)).2

/-- Claim C2: for an undo or redo replay of an existing action in the
eligible state, the aggregate is classified error exactly when zero files
were updated (and then reported as a top-level HTTP 500 error), partial
exactly when at least one file was updated and at least one per-file error
was collected, and success exactly when at least one file was updated and no
per-file errors occurred. -/
theorem c2_aggregate_classification (c : Codec) (hist : List HistoryAction)
    (id : String) (a : HistoryAction)
    (ha : get_action hist id = some a) (hwf : wfb a = true) :
    (a.is_undone = false →
      ∃ g, undoReplay c a = Except.ok g
        ∧ (undo_action c hist id).1
            = UndoResult.done (statusOf g.fu g.errs) (httpOf g.fu g.errs) g.fu g.errs g.trace)
    ∧ (a.is_undone = true →
      ∃ g, redoReplay c a = Except.ok g
        ∧ (redo_action c hist id).1
            = UndoResult.done (statusOf g.fu g.errs) (httpOf g.fu g.errs) g.fu g.errs g.trace)
    ∧ (∀ (fu : Nat) (errs : List String),
        (statusOf fu errs = "error" ↔ fu = 0)
        ∧ (statusOf fu errs = "partial" ↔ fu ≠ 0 ∧ errs ≠ [])
        ∧ (statusOf fu errs = "success" ↔ fu ≠ 0 ∧ errs = [])
        ∧ (statusOf fu errs = "error" → httpOf fu errs = 500)) := by
  refine ⟨fun hn => ?_, fun hu => ?_, fun fu errs => ?_⟩
  · obtain ⟨g, hg⟩ := undoReplay_ok c a hwf
    exact ⟨g, hg, by simp [undo_action, ha, hn, hg]⟩
  · obtain ⟨g, hg⟩ := redoReplay_ok c a hwf
    exact ⟨g, hg, by simp [redo_action, ha, hu, hg]⟩
  · by_cases h0 : fu = 0
    · subst h0
      simp [statusOf, httpOf]
    · by_cases he : errs = []
      · subst he
        simp [statusOf, httpOf, h0]
      · simp [statusOf, httpOf, h0, he]

/-- Witness for C2 at a concrete eligible batch action under a codec that
fails on one of the two files: the aggregate is partial. -/
theorem c2_aggregate_classification_witness :
    get_action [actBatch] "b1" = some actBatch ∧ wfb actBatch = true
    ∧ actBatch.is_undone = false
    ∧ (∃ g, undoReplay oneFailCodec actBatch = Except.ok g
        ∧ (undo_action oneFailCodec [actBatch] "b1").1
            = UndoResult.done (statusOf g.fu g.errs) (httpOf g.fu g.errs) g.fu g.errs g.trace)
    ∧ statusOf 1 ["t2.mp3: Permission denied"] = "partial" :=
  ⟨by decide, by decide, by decide,
   (c2_aggregate_classification oneFailCodec [actBatch] "b1" actBatch
      (by decide) (by decide)).1 (by decide),
   by decide⟩

/-- Claim C3: for every undo of an eligible (found, not yet undone,
well-formed) action, once the per-file replay loop completes the flag
is_undone is set to true whatever the per-file outcomes under any codec —
including a codec failing every file; symmetrically redo resets it to
false. -/
theorem c3_flag_set_unconditionally (c : Codec) (hist : List HistoryAction)
    (id : String) (a : HistoryAction)
    (ha : get_action hist id = some a) (hwf : wfb a = true) :
    (a.is_undone = false →
      (undo_action c hist id).2 = set_is_undone hist id true
      ∧ get_action ((undo_action c hist id).2) id = some { a with is_undone := true })
    ∧ (a.is_undone = true →
      (redo_action c hist id).2 = set_is_undone hist id false
      ∧ get_action ((redo_action c hist id).2) id = some { a with is_undone := false }) := by
  constructor
  · intro hn
    obtain ⟨g, hg⟩ := undoReplay_ok c a hwf
    have h1 : (undo_action c hist id).2 = set_is_undone hist id true := by
      simp [undo_action, ha, hn, hg]
    exact ⟨h1, by rw [h1]; exact get_action_set_is_undone hist id a true ha⟩
  · intro hu
    obtain ⟨g, hg⟩ := redoReplay_ok c a hwf
    have h1 : (redo_action c hist id).2 = set_is_undone hist id false := by
      simp [redo_action, ha, hu, hg]
    exact ⟨h1, by rw [h1]; exact get_action_set_is_undone hist id a false ha⟩

/-- Claim C4: in every batch replay (undo or redo of a multi-file action),
the loop over the files of the action computes the independent combination
of per-file outcomes — a failure on one file never aborts iteration over the
remaining files — every per-file (filename, reason) failure pair reaches the
aggregate errors list, and every per-file actuator call reaches the
aggregate trace. -/
theorem c4_batch_failure_isolation (c : Codec) (a : HistoryAction) :
    (a.action_type = ActionType.batch_metadata →
      undoReplay c a = Except.ok (aggOf (undoMetaStep c a) a.files)
      ∧ redoReplay c a = Except.ok (aggOf (redoMetaStep c a) a.files)
      ∧ (∀ fp ∈ a.files, ∀ e,
          c.apply_metadata_to_file fp a.field ((a.old_values.lookup fp).getD "") = some e →
          errMsg fp e ∈ (aggOf (undoMetaStep c a) a.files).errs)
      ∧ (∀ fp ∈ a.files,
          Call.applyMeta fp a.field ((a.old_values.lookup fp).getD "")
            ∈ (aggOf (undoMetaStep c a) a.files).trace))
    ∧ (a.action_type = ActionType.batch_album_art →
      undoReplay c a = Except.ok (aggOf (undoArtStep c a) a.files)
      ∧ redoReplay c a = Except.ok (aggOf (redoArtStep c a) a.files))
    ∧ (a.action_type = ActionType.batch_delete_field →
      undoReplay c a = Except.ok (aggOf (undoDelStep c a) a.files)
      ∧ redoReplay c a = Except.ok (aggOf (redoDelStep c a) a.files))
    ∧ (a.action_type = ActionType.batch_create_field →
      undoReplay c a = Except.ok (aggOf (undoCreateStep c a) a.files)
      ∧ redoReplay c a = Except.ok (aggOf (redoCreateStep c a) a.files))
    ∧ (∀ (step : String → Agg), ∀ fp ∈ a.files,
      (∀ x ∈ (step fp).errs, x ∈ (aggOf step a.files).errs)
      ∧ (∀ x ∈ (step fp).trace, x ∈ (aggOf step a.files).trace)) := by
  refine ⟨fun h => ⟨undoReplay_batch_metadata c a h, redoReplay_batch_metadata c a h, ?_, ?_⟩,
          fun h => ⟨undoReplay_batch_album_art c a h, redoReplay_batch_album_art c a h⟩,
          fun h => ⟨undoReplay_batch_delete_field c a h, redoReplay_batch_delete_field c a h⟩,
          fun h => ⟨undoReplay_batch_create_field c a h, redoReplay_batch_create_field c a h⟩,
          fun step fp hfp =>
            ⟨mem_aggOf_errs step a.files fp hfp, mem_aggOf_trace step a.files fp hfp⟩⟩
  · intro fp hfp e he
    apply mem_aggOf_errs _ _ _ hfp
    simp [undoMetaStep, he]
  · intro fp hfp
    apply mem_aggOf_trace _ _ _ hfp
    cases hc : c.apply_metadata_to_file fp a.field ((a.old_values.lookup fp).getD "") <;>
      simp [undoMetaStep, hc]

/-- Witness for C4 at a two-file batch metadata action whose second, nested
file fails: the failure pair is collected and both files are attempted. -/
theorem c4_batch_failure_isolation_witness :
    actBatch.action_type = ActionType.batch_metadata
    ∧ undoReplay oneFailCodec actBatch
        = Except.ok (aggOf (undoMetaStep oneFailCodec actBatch) actBatch.files)
    ∧ ("/music/A/sub/t2.mp3" ∈ actBatch.files
        ∧ oneFailCodec.apply_metadata_to_file "/music/A/sub/t2.mp3" actBatch.field
            ((actBatch.old_values.lookup "/music/A/sub/t2.mp3").getD "")
          = some "Permission denied")
    ∧ errMsg "/music/A/sub/t2.mp3" "Permission denied"
        ∈ (aggOf (undoMetaStep oneFailCodec actBatch) actBatch.files).errs
    ∧ Call.applyMeta "/music/A/t1.mp3" actBatch.field
        ((actBatch.old_values.lookup "/music/A/t1.mp3").getD "")
        ∈ (aggOf (undoMetaStep oneFailCodec actBatch) actBatch.files).trace := by
  have h := c4_batch_failure_isolation oneFailCodec actBatch
  refine ⟨rfl, (h.1 rfl).1, ⟨by decide, by decide⟩, ?_, ?_⟩
  · exact (h.1 rfl).2.2.1 "/music/A/sub/t2.mp3" (by decide) "Permission denied" (by decide)
  · exact (h.1 rfl).2.2.2 "/music/A/t1.mp3" (by decide)

set_option maxHeartbeats 1600000 in
/-- Claim C5: whenever a file rename, folder rename or folder move answers
success, the returned state already carries the history with every affected
audio file — including every file nested at any depth below a renamed or
moved folder — rewritten from its old absolute path to the corresponding
path below the new location.  (The folder parts assume the collected walk is
duplicate-free and that no target path is again a source, which holds for a
real directory tree since the target folder must not previously exist.) -/
theorem c5_reference_rewrite :
    (∀ (st : SrvState) (musicDir oldPath newName old_path r : String) (st' : SrvState),
      validate_path musicDir (osJoin musicDir oldPath) = some old_path →
      rename_file st musicDir oldPath newName = (Resp.okPath r, st') →
      st'.hist = st.hist.map (mapActionPaths (subst old_path
        (osJoin (dirname old_path)
          (if splitextExt newName = "" then newName ++ strToLower (splitextExt old_path)
           else newName)))))
    ∧ (∀ (st : SrvState) (musicDir oldPath newName old_path r : String) (st' : SrvState),
      validate_path musicDir (osJoin musicDir oldPath) = some old_path →
      rename_folder st musicDir oldPath newName = (Resp.okPath r, st') →
      (walkAudio st old_path).Nodup →
      (∀ p ∈ walkAudio st old_path,
        osJoin (osJoin (dirname old_path) newName) (relpathOf old_path p)
          ∉ walkAudio st old_path) →
      st'.hist = st.hist.map (mapActionPaths (fun q =>
        if q ∈ walkAudio st old_path
        then osJoin (osJoin (dirname old_path) newName) (relpathOf old_path q) else q)))
    ∧ (∀ (st : SrvState) (musicDir srel drel source_path dest_parent_path r : String)
        (st' : SrvState),
      validate_path musicDir (osJoin musicDir srel) = some source_path →
      validate_path musicDir (osJoin musicDir drel) = some dest_parent_path →
      move_folder st musicDir (some srel) (some drel) = (Resp.okPath r, st') →
      (walkAudio st source_path).Nodup →
      (∀ p ∈ walkAudio st source_path,
        osJoin (osJoin dest_parent_path (basename source_path)) (relpathOf source_path p)
          ∉ walkAudio st source_path) →
      st'.hist = st.hist.map (mapActionPaths (fun q =>
        if q ∈ walkAudio st source_path
        then osJoin (osJoin dest_parent_path (basename source_path)) (relpathOf source_path q)
        else q))) := by
  refine ⟨?_, ?_, ?_⟩
  · intro st musicDir oldPath newName old_path r st' hv h
    simp only [rename_file, hv] at h
    split_ifs at h <;> simp_all
    all_goals obtain ⟨hr, hst⟩ := h
    all_goals rw [← hst]
    all_goals rfl
  · intro st musicDir oldPath newName old_path r st' hv h hnd hdisj
    simp only [rename_folder, hv] at h
    split_ifs at h <;> simp at h
    obtain ⟨hr, hst⟩ := h
    rw [← hst]
    exact hist_fold_rewrite (walkAudio st old_path)
      (fun of => osJoin (osJoin (dirname old_path) newName) (relpathOf old_path of))
      st.hist hnd hdisj
  · intro st musicDir srel drel source_path dest_parent_path r st' hv1 hv2 h hnd hdisj
    simp only [move_folder, Option.getD_some, hv1, hv2, reduceCtorEq, false_or,
      or_false, Option.some.injEq] at h
    split_ifs at h <;> first | exact absurd (congrArg Prod.fst h) (fun hc => Resp.noConfusion hc) | skip
    have hst : _ = st' := congrArg Prod.snd h
    rw [← hst]
    exact hist_fold_rewrite (walkAudio st source_path)
      (fun of => osJoin (osJoin dest_parent_path (basename source_path))
        (relpathOf source_path of))
      st.hist hnd hdisj

/-- Witness for C5 on the concrete tree: the batch action referencing the
files below /music/A is rewritten by a file rename, a folder rename and a
folder move. -/
theorem c5_reference_rewrite_witness :
    (validate_path "/music" (osJoin "/music" "A/t1.mp3") = some "/music/A/t1.mp3"
      ∧ (rename_file baseSt "/music" "A/t1.mp3" "zz").2.hist
          = baseSt.hist.map (mapActionPaths (subst "/music/A/t1.mp3"
              (osJoin (dirname "/music/A/t1.mp3")
                (if splitextExt "zz" = "" then "zz" ++ strToLower (splitextExt "/music/A/t1.mp3")
                 else "zz")))))
    ∧ (validate_path "/music" (osJoin "/music" "A") = some "/music/A"
      ∧ (walkAudio baseSt "/music/A").Nodup
      ∧ (∀ p ∈ walkAudio baseSt "/music/A",
          osJoin (osJoin (dirname "/music/A") "C") (relpathOf "/music/A" p)
            ∉ walkAudio baseSt "/music/A")
      ∧ (rename_folder baseSt "/music" "A" "C").2.hist
          = baseSt.hist.map (mapActionPaths (fun q =>
              if q ∈ walkAudio baseSt "/music/A"
              then osJoin (osJoin (dirname "/music/A") "C") (relpathOf "/music/A" q) else q)))
    ∧ ((∀ p ∈ walkAudio baseSt "/music/A",
          osJoin (osJoin "/music/B" (basename "/music/A")) (relpathOf "/music/A" p)
            ∉ walkAudio baseSt "/music/A")
      ∧ (move_folder baseSt "/music" (some "A") (some "B")).2.hist
          = baseSt.hist.map (mapActionPaths (fun q =>
              if q ∈ walkAudio baseSt "/music/A"
              then osJoin (osJoin "/music/B" (basename "/music/A")) (relpathOf "/music/A" q)
              else q))) := by
  refine ⟨⟨by decide, ?_⟩, ⟨by decide, by decide, by decide, ?_⟩, ⟨by decide, ?_⟩⟩
  · exact c5_reference_rewrite.1 baseSt "/music" "A/t1.mp3" "zz" "/music/A/t1.mp3"
      "A/zz.mp3" (rename_file baseSt "/music" "A/t1.mp3" "zz").2 (by decide) rfl
  · exact c5_reference_rewrite.2.1 baseSt "/music" "A" "C" "/music/A"
      "C" (rename_folder baseSt "/music" "A" "C").2 (by decide) rfl (by decide) (by decide)
  · exact c5_reference_rewrite.2.2 baseSt "/music" "A" "B" "/music/A" "/music/B"
      "B/A" (move_folder baseSt "/music" (some "A") (some "B")).2 (by decide) (by decide)
      rfl (by decide) (by decide)

/-- Claim C8: on redo of a CreateField or BatchCreateField action, the field
written through the codec is createFieldName, which translates a stored
frame identifier back to the semantic name through the frame_to_field map of
the tag system exactly when the base format of the file is mp3 or wav, and
is the stored name unchanged for every other format. -/
theorem c8_redo_create_field_translation (c : Codec) (a : HistoryAction) :
    (∀ fp v, a.action_type = ActionType.create_field →
      a.files.head? = some fp → a.new_values.lookup fp = some v →
      ∃ g, redoReplay c a = Except.ok g
        ∧ g.trace = [Call.writeCustom fp (createFieldName c fp a.field) v])
    ∧ (a.action_type = ActionType.batch_create_field →
      redoReplay c a = Except.ok (aggOf (redoCreateStep c a) a.files)
      ∧ ∀ fp ∈ a.files,
          Call.writeCustom fp (createFieldName c fp a.field)
              ((a.new_values.lookup fp).getD "")
            ∈ (aggOf (redoCreateStep c a) a.files).trace)
    ∧ (∀ fp field sem, (c.base_format fp = "mp3" ∨ c.base_format fp = "wav") →
      c.frame_to_field.lookup field = some sem → createFieldName c fp field = sem)
    ∧ (∀ fp field, ¬ (c.base_format fp = "mp3" ∨ c.base_format fp = "wav") →
      createFieldName c fp field = field) := by
  refine ⟨fun fp v hty hh hv => ?_, fun hty => ⟨redoReplay_batch_create_field c a hty, ?_⟩,
          fun fp field sem hfmt hlook => by simp [createFieldName, hfmt, hlook],
          fun fp field hn => by simp [createFieldName, hn]⟩
  · cases hc : c.write_custom_field fp (createFieldName c fp a.field) v with
    | ok b =>
      cases b
      · exact ⟨⟨0, [errMsg fp "Failed to recreate field"],
          [Call.writeCustom fp (createFieldName c fp a.field) v]⟩,
          by simp [redoReplay, hty, hh, hv, hc], rfl⟩
      · exact ⟨⟨1, [], [Call.writeCustom fp (createFieldName c fp a.field) v]⟩,
          by simp [redoReplay, hty, hh, hv, hc], rfl⟩
    | error e =>
      exact ⟨⟨0, [errMsg fp e], [Call.writeCustom fp (createFieldName c fp a.field) v]⟩,
        by simp [redoReplay, hty, hh, hv, hc], rfl⟩
  · intro fp hfp
    apply mem_aggOf_trace _ _ _ hfp
    cases hc : c.write_custom_field fp (createFieldName c fp a.field)
        ((a.new_values.lookup fp).getD "") with
    | ok b => cases b <;> simp [redoCreateStep, hc]
    | error e => simp [redoCreateStep, hc]

/-- Witness for C8 at an mp3 codec mapping the frame TPE2 to albumartist, on
a single and a batch field creation action. -/
theorem c8_redo_create_field_translation_witness :
    actCreate.action_type = ActionType.create_field
    ∧ actCreate.files.head? = some "/music/A/t1.mp3"
    ∧ actCreate.new_values.lookup "/music/A/t1.mp3" = some "The Band"
    ∧ (∃ g, redoReplay mp3Codec actCreate = Except.ok g
        ∧ g.trace = [Call.writeCustom "/music/A/t1.mp3"
            (createFieldName mp3Codec "/music/A/t1.mp3" actCreate.field) "The Band"])
    ∧ (mp3Codec.base_format "/music/A/t1.mp3" = "mp3"
        ∨ mp3Codec.base_format "/music/A/t1.mp3" = "wav")
    ∧ mp3Codec.frame_to_field.lookup "TPE2" = some "albumartist"
    ∧ createFieldName mp3Codec "/music/A/t1.mp3" "TPE2" = "albumartist"
    ∧ actBatchCreate.action_type = ActionType.batch_create_field
    ∧ redoReplay mp3Codec actBatchCreate
        = Except.ok (aggOf (redoCreateStep mp3Codec actBatchCreate) actBatchCreate.files) := by
  have h1 := c8_redo_create_field_translation mp3Codec actCreate
  have h2 := c8_redo_create_field_translation mp3Codec actBatchCreate
  refine ⟨rfl, by decide, by decide,
          h1.1 "/music/A/t1.mp3" "The Band" rfl (by decide) (by decide),
          Or.inl rfl, by decide,
          h1.2.2.1 "/music/A/t1.mp3" "TPE2" "albumartist" (Or.inl rfl) (by decide),
          rfl, (h2.2.1 rfl).1⟩

/-- A fold whose body appends a per-element contribution equals the initial
list followed by the concatenation of the contributions. -/
theorem foldl_append_factor {α β : Type} (body : List β → α → List β)
    (g : α → List β) (hb : ∀ h x, body h x = h ++ g x) :
    ∀ (l : List α) (h : List β), l.foldl body h = h ++ l.flatMap g := by
  intro l
  induction l with
  | nil => intro h; simp
  | cons x rest ih => intro h; simp [List.foldl_cons, hb, ih]

/-- Claim C6 (corrected): the batch create-field route treats a folder with
zero matching audio files as an error, not a success — with every guard
passed and no audio file directly inside the target folder, the aggregate is
status error with message No files were processed, zero counters, no errors,
and an unchanged history. -/
theorem c6_zero_match_error (c : Codec) (st : SrvState)
    (musicDir filepath field_name field_value : String)
    (h1 : ¬ (field_name = "" ∨ filepath = ""))
    (h2 : ¬ field_name.length > 50)
    (h3 : ¬ strContains field_name (Char.ofNat 0) = true)
    (h4 : field_name.toList.all (fun ch => ch.isAlphanum ∨ ch = '_' ∨ ch = ' ') = true)
    (hempty : st.audio.filter
        (fun p => dirname p = dirname (osJoin musicDir filepath)) = []) :
    create_custom_field_folder c st musicDir filepath field_name field_value
      = Except.ok ({ status := "error", filesCreated := 0, filesUpdated := 0,
                     errors := [], message := "No files were processed" }, st.hist) := by
  have h4' : ∀ x ∈ field_name.data, x.isAlphanum ∨ x = '_' ∨ x = ' ' := by
    simpa [List.all_eq_true] using h4
  simp [create_custom_field_folder, h1, h2, h3, hempty]
  intro x hx hal hun
  rcases h4' x hx with h | h | h
  · simp [hal] at h
  · exact absurd h hun
  · exact h

/-- Counterexample for C6 as frozen: on a folder with zero matching audio
files the batch create-field mutation answers status error — not the status
success with zero files the claim asserts. -/
theorem c6_counterexample :
    create_custom_field_folder okCodec baseSt "/music" "C/x.mp3" "MOOD" "v"
      = Except.ok ({ status := "error", filesCreated := 0, filesUpdated := 0,
                     errors := [], message := "No files were processed" }, baseSt.hist)
    ∧ ("error" : String) ≠ "success" :=
  ⟨rfl, by decide⟩

/-- Witness for C6 at the concrete tree: the folder of C/x.mp3 holds no
audio files. -/
theorem c6_zero_match_error_witness :
    ¬ (("MOOD" : String) = "" ∨ ("C/x.mp3" : String) = "")
    ∧ ¬ ("MOOD" : String).length > 50
    ∧ ¬ strContains "MOOD" (Char.ofNat 0) = true
    ∧ ("MOOD" : String).toList.all (fun ch => ch.isAlphanum ∨ ch = '_' ∨ ch = ' ') = true
    ∧ baseSt.audio.filter
        (fun p => dirname p = dirname (osJoin "/music" "C/x.mp3")) = []
    ∧ create_custom_field_folder okCodec baseSt "/music" "C/x.mp3" "MOOD" "v"
        = Except.ok ({ status := "error", filesCreated := 0, filesUpdated := 0,
                       errors := [], message := "No files were processed" }, baseSt.hist) :=
  ⟨by decide, by decide, by decide, by decide, by decide,
   c6_zero_match_error okCodec baseSt "/music" "C/x.mp3" "MOOD" "v"
     (by decide) (by decide) (by decide) (by decide) (by decide)⟩

/-- Claim C7: in the single-file metadata update, a history action is
recorded for a submitted field exactly when the normalised old and new
values differ (a single space normalises to empty); the recorded type is
clear_field exactly when the normalised new value is empty and the
normalised old value is not, and metadata_change otherwise; equal normalised
values record nothing. -/
theorem c7_field_tracking (filepath : String) (cur data : List (String × String))
    (hist : List HistoryAction) :
    set_metadata_track filepath cur data hist
      = hist ++ (data.filter (fun kv => kv.1 ≠ "art" ∧ kv.1 ≠ "removeArt")).flatMap
          (fun kv => (trackField filepath cur kv.1 kv.2).toList)
    ∧ (∀ field v, trackField filepath cur field v = none ↔
        normSpace ((cur.lookup field).getD "") = normSpace v)
    ∧ (∀ field v a, trackField filepath cur field v = some a →
        (a.action_type = ActionType.clear_field
          ↔ (normSpace v = "" ∧ normSpace ((cur.lookup field).getD "") ≠ ""))
        ∧ (a.action_type = ActionType.metadata_change
          ↔ ¬ (normSpace v = "" ∧ normSpace ((cur.lookup field).getD "") ≠ "")))
    ∧ normSpace " " = "" := by
  refine ⟨?_, fun field v => ?_, fun field v a ht => ?_, rfl⟩
  · have hb : ∀ (h : List HistoryAction) (kv : String × String),
        (if normSpace ((cur.lookup kv.1).getD "") ≠ normSpace kv.2 then
          h ++ [create_metadata_action filepath kv.1 ((cur.lookup kv.1).getD "") kv.2
            (if normSpace kv.2 = "" ∧ normSpace ((cur.lookup kv.1).getD "") ≠ ""
             then ActionType.clear_field else ActionType.metadata_change)]
         else h)
        = h ++ (trackField filepath cur kv.1 kv.2).toList := by
      intro h kv
      by_cases hc : normSpace ((cur.lookup kv.1).getD "") ≠ normSpace kv.2 <;>
        simp [trackField, hc]
    exact foldl_append_factor _ _ hb (data.filter (fun kv => kv.1 ≠ "art" ∧ kv.1 ≠ "removeArt")) hist
  · by_cases heq : normSpace ((cur.lookup field).getD "") = normSpace v <;>
      simp [trackField, heq]
  · by_cases heq : normSpace ((cur.lookup field).getD "") ≠ normSpace v
    · simp only [trackField, if_pos heq, Option.some.injEq] at ht
      subst ht
      by_cases hcl : normSpace v = "" ∧ normSpace ((cur.lookup field).getD "") ≠ "" <;>
        simp [create_metadata_action, hcl]
    · simp [trackField, heq] at ht

/-- Witness for C7: a clear (new value empty, old "x"), an unchanged field
(space normalises to empty) and a plain change. -/
theorem c7_field_tracking_witness :
    set_metadata_track "/music/A/t1.mp3" [("title", "x"), ("genre", " ")]
        [("title", ""), ("genre", ""), ("artist", "Ann"), ("art", "zz")] []
      = [] ++ ([("title", ""), ("genre", ""), ("artist", "Ann"), ("art", "zz")].filter
          (fun kv => kv.1 ≠ "art" ∧ kv.1 ≠ "removeArt")).flatMap
          (fun kv => (trackField "/music/A/t1.mp3" [("title", "x"), ("genre", " ")]
            kv.1 kv.2).toList)
    ∧ trackField "/music/A/t1.mp3" [("title", "x"), ("genre", " ")] "genre" "" = none
    ∧ (∀ a, trackField "/music/A/t1.mp3" [("title", "x"), ("genre", " ")] "title" "" = some a →
        (a.action_type = ActionType.clear_field
          ↔ (normSpace "" = "" ∧ normSpace ((([("title", "x"), ("genre", " ")] :
              List (String × String)).lookup "title").getD "") ≠ ""))) := by
  refine ⟨(c7_field_tracking "/music/A/t1.mp3" [("title", "x"), ("genre", " ")]
      [("title", ""), ("genre", ""), ("artist", "Ann"), ("art", "zz")] []).1, by decide, ?_⟩
  intro a ht
  exact ((c7_field_tracking "/music/A/t1.mp3" [("title", "x"), ("genre", " ")]
    [] []).2.2.1 "title" "" a ht).1

/-- Claim C9: a move-folder request whose computed destination equals the
source, or whose destination parent is the source itself or strictly inside
the source subtree, is refused with a 400 error and the state — filesystem
and history alike — is returned unchanged. -/
theorem c9_move_into_self_guard (st : SrvState)
    (musicDir srel drel source_path dest_parent_path : String)
    (h0 : srel ≠ "")
    (hv1 : validate_path musicDir (osJoin musicDir srel) = some source_path)
    (hv2 : validate_path musicDir (osJoin musicDir drel) = some dest_parent_path)
    (hs : st.dirs.contains source_path = true)
    (hd : st.dirs.contains dest_parent_path = true)
    (hcond : osJoin dest_parent_path (basename source_path) = source_path
      ∨ dest_parent_path = source_path
      ∨ strStartsWith dest_parent_path (source_path ++ "/") = true) :
    move_folder st musicDir (some srel) (some drel)
        = (Resp.err 400 "Source and destination are the same", st)
      ∨ move_folder st musicDir (some srel) (some drel)
        = (Resp.err 400 "Cannot move folder into itself or its subdirectories", st) := by
  simp only [move_folder, Option.getD_some, hv1, hv2, reduceCtorEq, false_or, or_false,
    Option.some.injEq]
  split_ifs <;> first | (left; rfl) | (right; rfl) | simp_all [pathExists]

/-- Witness for C9: moving /music/A into its own subfolder /music/A/sub is
refused and the state is unchanged. -/
theorem c9_move_into_self_guard_witness :
    ("A" : String) ≠ ""
    ∧ validate_path "/music" (osJoin "/music" "A") = some "/music/A"
    ∧ validate_path "/music" (osJoin "/music" "A/sub") = some "/music/A/sub"
    ∧ baseSt.dirs.contains "/music/A" = true
    ∧ baseSt.dirs.contains "/music/A/sub" = true
    ∧ strStartsWith "/music/A/sub" ("/music/A" ++ "/") = true
    ∧ (move_folder baseSt "/music" (some "A") (some "A/sub")
        = (Resp.err 400 "Source and destination are the same", baseSt)
      ∨ move_folder baseSt "/music" (some "A") (some "A/sub")
        = (Resp.err 400 "Cannot move folder into itself or its subdirectories", baseSt)) :=
  ⟨by decide, by decide, by decide, by decide, by decide, by decide,
   c9_move_into_self_guard baseSt "/music" "A" "A/sub" "/music/A" "/music/A/sub"
     (by decide) (by decide) (by decide) (by decide) (by decide)
     (Or.inr (Or.inr (by decide)))⟩

/-- Claim C10 (corrected): a delete-folder request with a non-empty path
resolving to the root music directory is refused with 403 and the state is
unchanged, for every value of force; a request with an empty folder path —
which also resolves to the root — is refused earlier with 400, likewise
leaving the state unchanged.  The root is never removed. -/
theorem c10_root_delete_guard (st : SrvState) (musicDir folderPath : String)
    (force : Bool) :
    (folderPath ≠ "" →
      validate_path musicDir (osJoin musicDir folderPath) = some musicDir →
      st.dirs.contains musicDir = true →
      delete_folder st musicDir folderPath force
        = (Resp.err 403 "Cannot delete the root music directory", st))
    ∧ (folderPath = "" →
      delete_folder st musicDir folderPath force
        = (Resp.err 400 "Folder path is required", st)) := by
  constructor
  · intro h0 hv hroot
    simp only [delete_folder, hv]
    split_ifs <;> simp_all [pathExists]
  · intro h0
    simp [delete_folder, h0]

/-- Counterexample for C10 as frozen: the empty folder path resolves to the
root music directory, yet the route answers 400, not the 403 the claim
asserts for every request resolving to the root. -/
theorem c10_counterexample :
    delete_folder baseSt "/music" "" true
      = (Resp.err 400 "Folder path is required", baseSt)
    ∧ validate_path "/music" (osJoin "/music" "") = some "/music"
    ∧ Resp.err 400 "Folder path is required"
        ≠ Resp.err 403 "Cannot delete the root music directory" :=
  ⟨by decide, by decide, by decide⟩

/-- Witness for C10: the path dot resolves to the root and is refused with
403 whatever force says; the empty path is refused with 400. -/
theorem c10_root_delete_guard_witness :
    (("." : String) ≠ ""
      ∧ validate_path "/music" (osJoin "/music" ".") = some "/music"
      ∧ baseSt.dirs.contains "/music" = true
      ∧ delete_folder baseSt "/music" "." true
          = (Resp.err 403 "Cannot delete the root music directory", baseSt))
    ∧ delete_folder baseSt "/music" "" false
        = (Resp.err 400 "Folder path is required", baseSt) := by
  refine ⟨⟨by decide, by decide, by decide, ?_⟩, ?_⟩
  · exact (c10_root_delete_guard baseSt "/music" "." true).1 (by decide) (by decide) (by decide)
  · exact (c10_root_delete_guard baseSt "/music" "" false).2 rfl

/-- Witness for C3: even under the codec failing every file (aggregate
status error, zero updated), the flag is flipped. -/
theorem c3_flag_set_unconditionally_witness :
    get_action [actBatch] "b1" = some actBatch ∧ wfb actBatch = true
    ∧ actBatch.is_undone = false
    ∧ get_action ((undo_action allFailCodec [actBatch] "b1").2) "b1"
        = some { actBatch with is_undone := true }
    ∧ (undo_action allFailCodec [actBatch] "b1").1
        = UndoResult.done "error" 500 0 ["t1.mp3: boom", "t2.mp3: boom"]
            [Call.applyMeta "/music/A/t1.mp3" "title" "x",
             Call.applyMeta "/music/A/sub/t2.mp3" "title" "y"] := by
  refine ⟨by decide, by decide, by decide, ?_, by decide⟩
  exact ((c3_flag_set_unconditionally allFailCodec [actBatch] "b1" actBatch
    (by decide) (by decide)).1 (by decide)).2

end Mrem
